import Mathlib

/-!
Verification development for the Quiz-Back game engine
(src/app/features/games/services.py and the repositories it uses).

The Python service is embedded shallowly:
- SQL rows become structures, repository queries become list filters and
  lookups over an explicit database state;
- the scoring replay engine (GameService._score_timeline) becomes a pure
  per-cell delta function plus pointwise sums over the list of resolved
  cells (the Python loop accumulates the same per-cell deltas into dicts;
  addition of the per-cell contributions is order independent, so the
  cumulative totals are the fold of the per-cell function);
- dict access such as delta[pid] is totalized: the model returns the value
  the Python code produces on every key it actually writes, and theorems
  that need a key to be a real player carry that as a hypothesis.
-/

namespace QuizBack

/-- Joker name constant from GameService (self.JOKER_X2). -/
def JOKER_X2 : String := "x2"

/-- Joker name constant from GameService (self.JOKER_ALL_IN). -/
def JOKER_ALL_IN : String := "All-In"

/-- Joker name constant from GameService (self.JOKER_GAMBLE). -/
def JOKER_GAMBLE : String := "Gamble"

/-- Joker name constant from GameService (self.JOKER_APPEL). -/
def JOKER_APPEL : String := "Appel à un ami"

/-- Row of GridRepository.list_answered_cells_for_scoring: a grid cell joined
with its question points and theme id. -/
structure ScoredCell where
  id : Nat
  round_id : Option Nat
  correct_answer : Bool
  skip_answer : Bool
  question_points : Int
  question_theme_id : Nat
deriving Repr, DecidableEq

/-- Row of JokerUsedInGameRepository.list_used_for_game_for_scoring, extended
with the usage id that _score_timeline reads (u.usage_id). -/
structure UsageRow where
  usage_id : Nat
  round_id : Nat
  using_player_id : Nat
  joker_name : String
  target_player_id : Option Nat
  target_grid_id : Option Nat
deriving Repr, DecidableEq

/-- Entry of the players_out list passed to _score_timeline: the player id and
the id of the theme the player owns. -/
structure PlayerOut where
  id : Nat
  theme_id : Nat
deriving Repr, DecidableEq

/-- Dict comprehension player_theme = \x7bp.id: p.theme.id\x7d: on duplicate ids the
last entry wins, hence the lookup over the reversed list. -/
def player_theme (players_out : List PlayerOut) (pid : Nat) : Option Nat :=
  (players_out.reverse.find? (fun p => p.id == pid)).map (fun p => p.theme_id)

/-- Dict comprehension theme_owner = \x7bp.theme.id: p.id\x7d: on duplicate themes the
last entry wins, hence the lookup over the reversed list. -/
def theme_owner (players_out : List PlayerOut) (tid : Nat) : Option Nat :=
  (players_out.reverse.find? (fun p => p.theme_id == tid)).map (fun p => p.id)

/-- GameService._iter_round_jokers: usages of the given round, by the given
player, with the given joker name (jokers_by_round groups by round preserving
input order, so a filter over the full list yields the same sequence). -/
def round_jokers (used_rows : List UsageRow) (round_id using_player_id : Nat)
    (joker_name : String) : List UsageRow :=
  used_rows.filter (fun u =>
    u.round_id == round_id && u.using_player_id == using_player_id &&
    u.joker_name == joker_name)

/-- GameService._called_player_ids_for_round: targets of the Appel jokers used
by the answering player on this round. The Python truthiness test
(if u.target_player_id) drops both None and 0. -/
def called_player_ids_for_round (used_rows : List UsageRow)
    (round_id answering_player_id : Nat) : List Nat :=
  (round_jokers used_rows round_id answering_player_id JOKER_APPEL).filterMap
    (fun u => match u.target_player_id with
      | some t => if t == 0 then none else some t
      | none => none)

/-- GameService._build_joker_indexes, gambles_by_grid side: Gamble usages whose
target grid is this cell. Usages with a falsy target (None or 0) are never
indexed, hence the extra 0 test. -/
def gambles_for_grid (used_rows : List UsageRow) (grid_id : Nat) : List UsageRow :=
  used_rows.filter (fun u =>
    u.joker_name == JOKER_GAMBLE &&
    (match u.target_grid_id with
      | some t => t != 0 && t == grid_id
      | none => false))

/-- Per round scoring output of one replay step of _score_timeline: the net
delta of the round and the three bonus metric contributions (inflicted loss,
suffered loss, attempted difficulty), each as a total map over player ids. -/
structure RoundScoring where
  delta : Nat → Int
  inflicted : Nat → Int
  suffered : Nat → Int
  attempted : Nat → Int

/-- Constant zero scoring, produced by the skip branch of the replay loop. -/
def zeroScoring : RoundScoring :=
  { delta := fun _ => 0, inflicted := fun _ => 0
    suffered := fun _ => 0, attempted := fun _ => 0 }

/-- The owner_penalty_blocked flag of one replay step: the question theme has
an owner and that owner is among the Appel targets of the answering player on
this round. -/
def owner_penalty_blocked (players_out : List PlayerOut) (used_rows : List UsageRow)
    (answering_player_id : Nat) (cell : ScoredCell) (round_id : Nat) : Bool :=
  match theme_owner players_out cell.question_theme_id with
  | some o => (called_player_ids_for_round used_rows round_id answering_player_id).contains o
  | none => false

/-- Condition under which pid receives the owner penalty of the base and x2
rules: the answer is cross-theme (player_theme.get(answering) differs from the
question theme), pid is the truthy owner of the theme, and the penalty is not
blocked by an Appel on the owner. -/
def owner_hit (players_out : List PlayerOut) (used_rows : List UsageRow)
    (answering_player_id : Nat) (cell : ScoredCell) (round_id : Nat) (pid : Nat) : Bool :=
  (player_theme players_out answering_player_id != some cell.question_theme_id) &&
  theme_owner players_out cell.question_theme_id == some pid && pid != 0 &&
  !(owner_penalty_blocked players_out used_rows answering_player_id cell round_id)

/-- The _has_round_joker test for the x2 joker of the answering player. -/
def has_x2 (used_rows : List UsageRow) (round_id answering_player_id : Nat) : Bool :=
  !(round_jokers used_rows round_id answering_player_id JOKER_X2).isEmpty

/-- Number of All-In usages of the answering player on this round (the Python
block runs once per usage). -/
def all_in_count (used_rows : List UsageRow) (round_id answering_player_id : Nat) : Nat :=
  (round_jokers used_rows round_id answering_player_id JOKER_ALL_IN).length

/-- Truthy targets of the Appel usages of the answering player on this round,
one per usage (if not u.target_player_id: continue). -/
def appel_targets (used_rows : List UsageRow) (round_id answering_player_id : Nat) :
    List Nat :=
  (round_jokers used_rows round_id answering_player_id JOKER_APPEL).filterMap
    (fun u => match u.target_player_id with
      | some t => if t == 0 then none else some t
      | none => none)

/-- Gamble usages triggered by the resolution of this cell, excluding those
whose gambler is the answering player. -/
def cell_gambles (used_rows : List UsageRow) (answering_player_id : Nat)
    (cell : ScoredCell) : List UsageRow :=
  (gambles_for_grid used_rows cell.id).filter
    (fun u => u.using_player_id != answering_player_id)

/-- Scoring normal block of the replay loop: the answering player gains the
points when correct, and the theme owner loses them on a cross-theme answer
unless blocked. -/
def base_delta (players_out : List PlayerOut) (used_rows : List UsageRow)
    (answering_player_id : Nat) (cell : ScoredCell) (round_id : Nat) (pid : Nat) : Int :=
  (if cell.correct_answer && pid == answering_player_id then cell.question_points else 0)
  + (if cell.correct_answer &&
        owner_hit players_out used_rows answering_player_id cell round_id pid then
      -cell.question_points
    else 0)

/-- x2 block of the replay loop: applied once when the answering player has an
x2 usage on this round, repeating the base transfer. -/
def x2_delta (players_out : List PlayerOut) (used_rows : List UsageRow)
    (answering_player_id : Nat) (cell : ScoredCell) (round_id : Nat) (pid : Nat) : Int :=
  (if cell.correct_answer && has_x2 used_rows round_id answering_player_id &&
      pid == answering_player_id then cell.question_points else 0)
  + (if cell.correct_answer && has_x2 used_rows round_id answering_player_id &&
        owner_hit players_out used_rows answering_player_id cell round_id pid then
      -cell.question_points
    else 0)

/-- All-In block of the replay loop, once per usage: when correct, each visit
of another player id in all_player_ids costs that player the points; when
incorrect the answering player loses the points. -/
def all_in_delta (players_out : List PlayerOut) (used_rows : List UsageRow)
    (answering_player_id : Nat) (cell : ScoredCell) (round_id : Nat) (pid : Nat) : Int :=
  (all_in_count used_rows round_id answering_player_id : Int) *
    (if cell.correct_answer then
      (if pid != answering_player_id then
        -((((players_out.map (fun p => p.id)).filter (fun q => q == pid)).length : Int)
          * cell.question_points)
      else 0)
    else (if pid == answering_player_id then -cell.question_points else 0))

/-- Appel block of the replay loop, once per usage with a target: the friend
gains the points when correct and loses them when incorrect. -/
def appel_delta (used_rows : List UsageRow)
    (answering_player_id : Nat) (cell : ScoredCell) (round_id : Nat) (pid : Nat) : Int :=
  (((appel_targets used_rows round_id answering_player_id).filter
      (fun t => t == pid)).length : Int) *
    (if cell.correct_answer then cell.question_points else -cell.question_points)

/-- Gamble block of the replay loop, once per usage targeting this cell: the
gambler gains the points when correct and loses them when incorrect; a gamble
by the answering player has no effect. -/
def gamble_delta (used_rows : List UsageRow)
    (answering_player_id : Nat) (cell : ScoredCell) (pid : Nat) : Int :=
  (((cell_gambles used_rows answering_player_id cell).filter
      (fun u => u.using_player_id == pid)).length : Int) *
    (if cell.correct_answer then cell.question_points else -cell.question_points)

/-- Inflicted-loss metric of one replay step (bonus_inflict_loss calls with
the answering player as attacker; self-inflicted losses are ignored). -/
def inflicted_metric (players_out : List PlayerOut) (used_rows : List UsageRow)
    (answering_player_id : Nat) (cell : ScoredCell) (round_id : Nat) (pid : Nat) : Int :=
  if pid == answering_player_id then
    (if cell.correct_answer then
        (match theme_owner players_out cell.question_theme_id with
          | some o =>
            (if owner_hit players_out used_rows answering_player_id cell round_id o &&
                o != answering_player_id then
              ((1 : Int) + (if has_x2 used_rows round_id answering_player_id then 1 else 0))
                * cell.question_points
            else 0)
          | none => 0)
      else 0)
    + (if cell.correct_answer then
        (all_in_count used_rows round_id answering_player_id : Int) *
          ((((players_out.map (fun p => p.id)).filter
              (fun q => q != answering_player_id)).length : Int) * cell.question_points)
      else 0)
    + (if cell.correct_answer then 0 else
        (((appel_targets used_rows round_id answering_player_id).filter
            (fun t => t != answering_player_id)).length : Int) * cell.question_points)
  else 0

/-- Suffered-loss metric of one replay step. -/
def suffered_metric (players_out : List PlayerOut) (used_rows : List UsageRow)
    (answering_player_id : Nat) (cell : ScoredCell) (round_id : Nat) (pid : Nat) : Int :=
  if pid == answering_player_id then 0
  else
    (if cell.correct_answer &&
        owner_hit players_out used_rows answering_player_id cell round_id pid then
      ((1 : Int) + (if has_x2 used_rows round_id answering_player_id then 1 else 0))
        * cell.question_points
    else 0)
    + (if cell.correct_answer then
        (all_in_count used_rows round_id answering_player_id : Int) *
          ((((players_out.map (fun p => p.id)).filter
              (fun q => q == pid)).length : Int) * cell.question_points)
      else 0)
    + (if cell.correct_answer then 0 else
        (((appel_targets used_rows round_id answering_player_id).filter
            (fun t => t == pid)).length : Int) * cell.question_points)

/-- One iteration of the main loop of GameService._score_timeline for a
resolved cell, given the answering player of its round. Mirrors, block by
block, the Python body: the skip early-exit, the base rule, the x2 block, the
All-In block, the Appel block and the Gamble block, together with the
bonus_inflict_loss and bonus_attempt metric updates those blocks perform. -/
def score_cell (players_out : List PlayerOut) (used_rows : List UsageRow)
    (answering_player_id : Nat) (cell : ScoredCell) (round_id : Nat) :
    RoundScoring :=
  -- Skip => aucun effet (ni jokers, ni gamble); bonus_attempt not reached.
  if cell.skip_answer then zeroScoring
  else
    { delta := fun pid =>
        base_delta players_out used_rows answering_player_id cell round_id pid
        + x2_delta players_out used_rows answering_player_id cell round_id pid
        + all_in_delta players_out used_rows answering_player_id cell round_id pid
        + appel_delta used_rows answering_player_id cell round_id pid
        + gamble_delta used_rows answering_player_id cell pid
      inflicted := fun pid =>
        inflicted_metric players_out used_rows answering_player_id cell round_id pid
      suffered := fun pid =>
        suffered_metric players_out used_rows answering_player_id cell round_id pid
      attempted := fun pid =>
        if pid == answering_player_id then cell.question_points else 0 }

/-- Resolution context of a replay step: the round id and the answering player
of a cell. Mirrors the two continue guards of the main loop, where Python
truthiness (if not round_id / if not answering_player_id) also drops id 0.
round_to_player_id is the index built by _build_round_indexes, as an
association list. -/
def cell_round_ctx (round_to_player_id : List (Nat × Nat)) (cell : ScoredCell) :
    Option (Nat × Nat) :=
  match cell.round_id with
  | none => none
  | some rid =>
    if rid == 0 then none
    else
      match round_to_player_id.lookup rid with
      | none => none
      | some pid => if pid == 0 then none else some (rid, pid)

/-- Scoring contribution of one cell to the cumulative totals: zero when the
cell has no usable resolution context (the loop skips it), otherwise the delta
of its replay step. -/
def cell_contrib (players_out : List PlayerOut)
    (round_to_player_id : List (Nat × Nat)) (used_rows : List UsageRow)
    (cell : ScoredCell) (pid : Nat) : Int :=
  match cell_round_ctx round_to_player_id cell with
  | none => 0
  | some (rid, apid) => (score_cell players_out used_rows apid cell rid).delta pid

/-- Cumulative scores of _score_timeline: the per-cell deltas accumulated over
all resolved cells (the loop order does not change the sum). -/
def timeline_scores (players_out : List PlayerOut)
    (round_to_player_id : List (Nat × Nat)) (used_rows : List UsageRow)
    (cells : List ScoredCell) (pid : Nat) : Int :=
  (cells.map (fun c => cell_contrib players_out round_to_player_id used_rows c pid)).sum

/-- Bonus metric contribution of one cell, selected by a projection of
RoundScoring (inflicted, suffered or attempted). -/
def cell_metric_contrib (sel : RoundScoring → Nat → Int)
    (players_out : List PlayerOut) (round_to_player_id : List (Nat × Nat))
    (used_rows : List UsageRow) (cell : ScoredCell) (pid : Nat) : Int :=
  match cell_round_ctx round_to_player_id cell with
  | none => 0
  | some (rid, apid) => sel (score_cell players_out used_rows apid cell rid) pid

/-- Bonus metrics of _score_timeline (with_bonus_metrics branch): pointwise
sums of the per-cell metric contributions. -/
def timeline_metric (sel : RoundScoring → Nat → Int)
    (players_out : List PlayerOut) (round_to_player_id : List (Nat × Nat))
    (used_rows : List UsageRow) (cells : List ScoredCell) (pid : Nat) : Int :=
  (cells.map (fun c =>
    cell_metric_contrib sel players_out round_to_player_id used_rows c pid)).sum

/-!
Database state and mutating operations.

The SQL tables of app/db/models become lists of structures; repository
queries become filters and lookups; the session commit points of each
service operation are recorded explicitly, so that atomicity claims can be
stated about the sequence of committed states.
-/

/-- Row of the game table (app/db/models/games.py). -/
structure Game where
  id : Nat
  owner_id : Nat
  seed : Int
  url : String
  rows_number : Nat
  columns_number : Nat
  finished : Bool
  with_pawns : Bool
deriving Repr, DecidableEq

/-- Row of the player table (app/db/models/players.py). -/
structure Player where
  id : Nat
  game_id : Nat
  color_id : Nat
  theme_id : Nat
  name : String
  order : Nat
  pawn_row : Option Nat
  pawn_col : Option Nat
deriving Repr, DecidableEq

/-- Row of the round table (app/db/models/rounds.py). -/
structure Round where
  id : Nat
  player_id : Nat
  round_number : Nat
deriving Repr, DecidableEq

/-- Row of the grid table (app/db/models/grids.py). -/
structure Grid where
  id : Nat
  game_id : Nat
  round_id : Option Nat
  question_id : Nat
  correct_answer : Bool
  skip_answer : Bool
  row : Nat
  column : Nat
deriving Repr, DecidableEq

/-- Row of the question table, restricted to the columns the engine reads. -/
structure Question where
  id : Nat
  theme_id : Nat
  points : Int
deriving Repr, DecidableEq

/-- Row of the joker_in_game table (app/db/models/jokers_in_games.py). -/
structure JokerInGame where
  id : Nat
  joker_id : Nat
  game_id : Nat
deriving Repr, DecidableEq

/-- Row of the joker_used_in_game table (app/db/models/jokers_used_in_games.py). -/
structure JokerUsedInGame where
  id : Nat
  joker_in_game_id : Nat
  round_id : Nat
  target_player_id : Option Nat
  target_grid_id : Option Nat
deriving Repr, DecidableEq

/-- The database: one list per table, plus id allocators for the rows the
engine inserts. -/
structure DB where
  games : List Game
  players : List Player
  rounds : List Round
  grids : List Grid
  questions : List Question
  theme_ids : List Nat
  jokers_in_game : List JokerInGame
  jokers_used : List JokerUsedInGame
  next_round_id : Nat
  next_usage_id : Nat
deriving Repr, DecidableEq

/-- Typed errors raised by GameService: LookupError, ConflictError and
PermissionError, with the message the service uses. -/
inductive EngineError where
  | lookup (msg : String)
  | conflict (msg : String)
  | permission (msg : String)
deriving Repr, DecidableEq

/-- GameRepository.get_by_url. -/
def get_by_url (db : DB) (url : String) : Option Game :=
  db.games.find? (fun g => g.url == url)

/-- PlayerRepository.list_by_game, order by Player.order ascending. -/
def players_list_by_game (db : DB) (game_id : Nat) : List Player :=
  (db.players.filter (fun p => p.game_id == game_id)).insertionSort
    (fun p q => p.order ≤ q.order)

/-- First element of a player list under ORDER BY order ASC LIMIT 1. -/
def min_by_order : List Player → Option Player
  | [] => none
  | p :: ps =>
    match min_by_order ps with
    | none => some p
    | some q => if p.order ≤ q.order then some p else some q

/-- PlayerRepository.get_next_player_in_game: the player of the game with the
smallest order strictly greater than current_order, else the player of the
game with the smallest order. -/
def get_next_player_in_game (db : DB) (game_id : Nat) (current_order : Nat) :
    Option Player :=
  match min_by_order (db.players.filter
      (fun p => p.game_id == game_id && current_order < p.order)) with
  | some p => some p
  | none => min_by_order (db.players.filter (fun p => p.game_id == game_id))

/-- Flat row of RoundRepository.get_round_context. -/
structure RoundCtx where
  round_id : Nat
  round_number : Nat
  player_id : Nat
  player_order : Nat
  player_theme_id : Nat
  game_id : Nat
deriving Repr, DecidableEq

/-- RoundRepository.get_round_context: the round joined with its player. -/
def get_round_context (db : DB) (round_id : Nat) : Option RoundCtx :=
  match db.rounds.find? (fun r => r.id == round_id) with
  | none => none
  | some r =>
    match db.players.find? (fun p => p.id == r.player_id) with
    | none => none
    | some p =>
      some { round_id := r.id, round_number := r.round_number,
             player_id := p.id, player_order := p.order,
             player_theme_id := p.theme_id, game_id := p.game_id }

/-- RoundRepository.exists_for_player_round_number. -/
def exists_for_player_round_number (db : DB) (player_id round_number : Nat) : Bool :=
  db.rounds.any (fun r => r.player_id == player_id && r.round_number == round_number)

/-- JokerUsedInGameRepository.list_used_joker_in_game_ids_for_player_before_round:
joker_in_game ids of usages joined through Round, Player and JokerInGame,
restricted to this game, this player, and rounds with a strictly smaller id. -/
def list_used_joker_in_game_ids_for_player_before_round (db : DB)
    (game_id player_id round_id : Nat) : List Nat :=
  (db.jokers_used.filter (fun u =>
    match db.rounds.find? (fun r => r.id == u.round_id),
          db.jokers_in_game.find? (fun j => j.id == u.joker_in_game_id) with
    | some r, some j =>
      db.players.any (fun p => p.id == r.player_id) &&
      j.game_id == game_id && r.player_id == player_id && r.id < round_id
    | _, _ => false)).map (fun u => u.joker_in_game_id)

/-- Payload of GameService.use_joker (JokerUseIn schema). -/
structure JokerUseIn where
  joker_in_game_id : Nat
  round_id : Nat
  target_player_id : Option Nat
  target_grid_id : Option Nat
deriving Repr, DecidableEq

/-- GameService.use_joker: looks up the game by url, checks ownership, checks
the joker instance and the round belong to the game, resolves the acting
player from the round, forbids reuse of an instance this player already used
in a round with a strictly smaller id, then appends one JokerUsedInGame row
(single commit). -/
def use_joker (db : DB) (game_url : String) (payload : JokerUseIn)
    (user_id : Nat) (is_admin : Bool) :
    Except EngineError (DB × JokerUsedInGame) :=
  match get_by_url db game_url with
  | none => .error (.lookup "GAME_NOT_FOUND")
  | some game =>
    if game.owner_id != user_id && !is_admin then .error (.permission "FORBIDDEN")
    else
      match db.jokers_in_game.find? (fun j => j.id == payload.joker_in_game_id) with
      | none => .error (.lookup "JOKER_IN_GAME_NOT_FOUND")
      | some jig =>
        if jig.game_id != game.id then .error (.lookup "JOKER_IN_GAME_NOT_FOUND")
        else
          match get_round_context db payload.round_id with
          | none => .error (.lookup "ROUND_NOT_FOUND")
          | some round_ctx =>
            if round_ctx.game_id != game.id then .error (.lookup "ROUND_NOT_IN_GAME")
            else
              let player_id := round_ctx.player_id
              let used_before := list_used_joker_in_game_ids_for_player_before_round
                db game.id player_id payload.round_id
              if used_before.contains payload.joker_in_game_id then
                .error (.conflict "Joker already used by this player")
              else
                let usage : JokerUsedInGame :=
                  { id := db.next_usage_id,
                    joker_in_game_id := payload.joker_in_game_id,
                    round_id := payload.round_id,
                    target_player_id := payload.target_player_id,
                    target_grid_id := payload.target_grid_id }
                .ok ({ db with jokers_used := db.jokers_used ++ [usage],
                               next_usage_id := db.next_usage_id + 1 }, usage)

/-- GameService._maybe_create_next_round_after_answer: from the context of the
just played round, find the next player in circular order and create
round_number + 1 for them, unless a round for that (player, round_number)
already exists. Returns the new state and the created round, if any. -/
def maybe_create_next_round_after_answer (db : DB)
    (game_id just_played_round_id : Nat) : DB × Option Round :=
  match get_round_context db just_played_round_id with
  | none => (db, none)
  | some ctx =>
    if ctx.game_id != game_id then (db, none)
    else
      match get_next_player_in_game db game_id ctx.player_order with
      | none => (db, none)
      | some next_player =>
        let next_round_number := ctx.round_number + 1
        if exists_for_player_round_number db next_player.id next_round_number then
          (db, none)
        else
          let created : Round :=
            { id := db.next_round_id, player_id := next_player.id,
              round_number := next_round_number }
          ({ db with rounds := db.rounds ++ [created],
                     next_round_id := db.next_round_id + 1 }, some created)

/-- GameService._is_edge_cell. -/
def is_edge_cell (row col rows cols : Nat) : Bool :=
  row == 0 || row == rows - 1 || col == 0 || col == cols - 1

/-- One direction of the on-grid walk of _get_valid_pawn_moves: step in
direction (dr, dc) jumping over answered cells until an unanswered cell, a
pawn, or the edge of the board. Fuel bounds the walk; rows + cols steps always
leave the board. -/
def ray_walk (rows cols : Nat) (answered other_pawns : List (Nat × Nat)) :
    Nat → Int → Int → Int → Int → Option (Nat × Nat)
  | 0, _, _, _, _ => none
  | fuel + 1, nr, nc, dr, dc =>
    if 0 ≤ nr && nr < (rows : Int) && 0 ≤ nc && nc < (cols : Int) then
      let cell := (nr.toNat, nc.toNat)
      if other_pawns.contains cell then none
      else if !(answered.contains cell) then some cell
      else ray_walk rows cols answered other_pawns fuel (nr + dr) (nc + dc) dr dc
    else none

/-- The eight directions of _get_valid_pawn_moves. -/
def pawn_directions : List (Int × Int) :=
  [(-1, -1), (-1, 0), (-1, 1), (0, -1), (0, 1), (1, -1), (1, 0), (1, 1)]

/-- GameService._get_valid_pawn_moves: off-grid pawns may enter any free edge
cell; on-grid pawns move along the eight directions, jumping answered cells.
Returned as a list whose membership matches the Python set. -/
def get_valid_pawn_moves (player_row player_col : Option Nat) (rows cols : Nat)
    (answered other_pawns : List (Nat × Nat)) : List (Nat × Nat) :=
  match player_row, player_col with
  | some r, some c =>
    pawn_directions.filterMap (fun d =>
      ray_walk rows cols answered other_pawns (rows + cols)
        ((r : Int) + d.1) ((c : Int) + d.2) d.1 d.2)
  | _, _ =>
    ((List.range rows).flatMap (fun r => (List.range cols).map (fun c => (r, c)))).filter
      (fun rc => is_edge_cell rc.1 rc.2 rows cols &&
        !(answered.contains rc) && !(other_pawns.contains rc))

/-- GameService._validate_pawn_move: no-op unless the game uses pawns,
otherwise checks the target cell against the valid moves of the player. -/
def validate_pawn_move (db : DB) (game : Game) (player : Player)
    (target_row target_col : Nat) (grid_cells : List Grid) :
    Except EngineError Unit :=
  if !game.with_pawns then .ok ()
  else
    let answered := (grid_cells.filter (fun c => !c.round_id.isNone)).map
      (fun c => (c.row, c.column))
    let other_pawns := (db.players.filter (fun p => p.game_id == game.id)).filterMap
      (fun p =>
        match p.pawn_row, p.pawn_col with
        | some r, some c => if p.id != player.id then some (r, c) else none
        | _, _ => none)
    let valid := get_valid_pawn_moves player.pawn_row player.pawn_col
      game.rows_number game.columns_number answered other_pawns
    if valid.contains (target_row, target_col) then .ok ()
    else .error (.conflict "INVALID_PAWN_MOVE")

/-- The with_pawns block of GameService.answer_question: load the player of
the round, validate the move against all grid cells of the game, and stage the
pawn position update (commit=False, flushed with the grid update). The source
calls repository methods list_by_game and update_pawn_position that the grid
and player repositories do not define; they are modelled as the filter and the
field update their names and call sites describe. -/
def answer_pawn_phase (db : DB) (game : Game) (ctx : RoundCtx) (grid : Grid) :
    Except EngineError DB :=
  if !game.with_pawns then .ok db
  else
    match db.players.find? (fun p => p.id == ctx.player_id) with
    | none => .error (.lookup "PLAYER_NOT_FOUND")
    | some player =>
      let all_grid_cells := db.grids.filter (fun c => c.game_id == game.id)
      match validate_pawn_move db game player grid.row grid.column all_grid_cells with
      | .error e => .error e
      | .ok _ =>
        .ok { db with players := db.players.map (fun p =>
          if p.id == player.id then
            { p with pawn_row := some grid.row, pawn_col := some grid.column }
          else p) }

/-- The grid write of answer_question: replace the resolved cell (by id) with
its updated row, leaving every other row unchanged. -/
def bind_cell_update (db_pawn : DB) (grid : Grid) (updated : Grid) : DB :=
  { db_pawn with grids := db_pawn.grids.map (fun c =>
      if c.id == grid.id then updated else c) }

/-- Payload of GameService.answer_question (AnswerCreateIn schema). -/
structure AnswerCreateIn where
  grid_id : Nat
  round_id : Nat
  correct_answer : Bool
  skip_answer : Bool
deriving Repr, DecidableEq

/-- Result of GameService.answer_question: the final state, the committed
states in order (the grid update commit, then the next round commit when one
is created), the updated cell and the created round. -/
structure AnswerResult where
  db : DB
  commits : List DB
  updated : Grid
  next_round : Option Round
deriving Repr, DecidableEq

/-- GameService.answer_question: looks up the game and the cell, refuses a
cell that is already answered, checks the round belongs to the game, runs the
pawn phase, binds the cell to the round with its outcome (first commit), and
when auto_next_round is set runs _maybe_create_next_round_after_answer, whose
round insertion is a second, separate commit. -/
def answer_question (db : DB) (game_url : String) (payload : AnswerCreateIn)
    (user_id : Nat) (is_admin : Bool) (auto_next_round : Bool) :
    Except EngineError AnswerResult :=
  match get_by_url db game_url with
  | none => .error (.lookup "GAME_NOT_FOUND")
  | some game =>
    if game.owner_id != user_id && !is_admin then .error (.permission "FORBIDDEN")
    else
      match db.grids.find? (fun c => c.id == payload.grid_id) with
      | none => .error (.lookup "GRID_NOT_FOUND")
      | some grid =>
        if grid.game_id != game.id then .error (.lookup "GRID_NOT_FOUND")
        else
          match grid.round_id with
          | some _ => .error (.conflict "GRID_ALREADY_ANSWERED")
          | none =>
            match get_round_context db payload.round_id with
            | none => .error (.lookup "ROUND_NOT_FOUND")
            | some round_ctx =>
              if round_ctx.game_id != game.id then .error (.lookup "ROUND_NOT_IN_GAME")
              else
                match answer_pawn_phase db game round_ctx grid with
                | .error e => .error e
                | .ok db_pawn =>
                  let updated : Grid :=
                    { grid with round_id := some payload.round_id,
                                correct_answer := payload.correct_answer,
                                skip_answer := payload.skip_answer }
                  let db1 : DB := bind_cell_update db_pawn grid updated
                  if auto_next_round then
                    match maybe_create_next_round_after_answer db1 game.id payload.round_id with
                    | (db2, some r) =>
                      .ok { db := db2, commits := [db1, db2],
                            updated := updated, next_round := some r }
                    | (_, none) =>
                      .ok { db := db1, commits := [db1],
                            updated := updated, next_round := none }
                  else
                    .ok { db := db1, commits := [db1],
                          updated := updated, next_round := none }

/-- Row of GridRepository.list_grid_questions_with_theme_and_points: a grid
cell of the game inner-joined with its question and the question theme. -/
structure GridQuestionRow where
  grid_id : Nat
  row : Nat
  column : Nat
  round_id : Option Nat
  correct_answer : Bool
  skip_answer : Bool
  question_id : Nat
  question_points : Int
  question_theme_id : Nat
deriving Repr, DecidableEq

/-- GridRepository.list_grid_questions_with_theme_and_points: the inner joins
drop cells whose question or theme row is absent; ordered by (row, column). -/
def list_grid_questions_with_theme_and_points (db : DB) (game_id : Nat) :
    List GridQuestionRow :=
  ((db.grids.filter (fun c => c.game_id == game_id)).insertionSort
    (fun a b => a.row < b.row || (a.row == b.row && a.column ≤ b.column))).filterMap
    (fun c =>
      match db.questions.find? (fun q => q.id == c.question_id) with
      | none => none
      | some q =>
        if db.theme_ids.contains q.theme_id then
          some { grid_id := c.id, row := c.row, column := c.column,
                 round_id := c.round_id, correct_answer := c.correct_answer,
                 skip_answer := c.skip_answer, question_id := c.question_id,
                 question_points := q.points, question_theme_id := q.theme_id }
        else none)

/-- The slice of the GameService.get_game_state output that the end-of-game
rule concerns: the final state (with the finished flag persisted when the rule
first holds), the flag itself, and the quantities the rule is computed from.
The remaining output fields (board, current turn, jokers, scores, bonus) are
read-only projections of the same state and are not modelled here. -/
structure GameStateOut where
  db : DB
  finished : Bool
  answered_count : Nat
  max_rounds : Nat
deriving Repr, DecidableEq

/-- The answered_count of get_game_state: joined grid rows whose round_id is
not None. -/
def answered_count_of (db : DB) (game_id : Nat) : Nat :=
  ((list_grid_questions_with_theme_and_points db game_id).filter
    (fun r => !r.round_id.isNone)).length

/-- The max_rounds of get_game_state: max_full_turns (integer division of the
grid size by the player count) times the player count. -/
def max_rounds_of (db : DB) (game_id : Nat) : Nat :=
  ((list_grid_questions_with_theme_and_points db game_id).length /
    (players_list_by_game db game_id).length) *
    (players_list_by_game db game_id).length

/-- games.update(game, commit=True, finished=True): the one write get_game_state
can perform. -/
def finish_game_update (db : DB) (game : Game) : DB :=
  { db with games := db.games.map (fun g =>
    if g.id == game.id then { g with finished := true } else g) }

/-- End-of-game portion of GameService.get_game_state: after the game and
permission lookups, the rule counts resolved cells over the joined grid rows,
compares with floor(grid_size / nb_players) * nb_players, and persists
finished = true (one commit) the first time the rule holds. -/
def get_game_state (db : DB) (game_url : String) (user_id : Nat)
    (is_admin : Bool) : Except EngineError GameStateOut :=
  match get_by_url db game_url with
  | none => .error (.lookup "GAME_NOT_FOUND")
  | some game =>
    if game.owner_id != user_id && !is_admin then .error (.permission "FORBIDDEN")
    else if (players_list_by_game db game.id).length == 0 then
      .error (.conflict "GAME_HAS_NO_PLAYERS")
    else if decide (answered_count_of db game.id ≥ max_rounds_of db game.id) &&
        !game.finished then
      .ok { db := finish_game_update db game, finished := true,
            answered_count := answered_count_of db game.id,
            max_rounds := max_rounds_of db game.id }
    else
      .ok { db := db, finished := game.finished,
            answered_count := answered_count_of db game.id,
            max_rounds := max_rounds_of db game.id }

/-- One invocation of a mutating or state-reading engine operation, with its
arguments. -/
inductive EngineOp where
  | answer (game_url : String) (payload : AnswerCreateIn) (user_id : Nat)
      (is_admin : Bool) (auto_next_round : Bool)
  | joker (game_url : String) (payload : JokerUseIn) (user_id : Nat) (is_admin : Bool)
  | state (game_url : String) (user_id : Nat) (is_admin : Bool)
  | advance (game_id : Nat) (round_id : Nat)

/-- The state after running one engine operation; a raised error leaves the
state unchanged (the transaction never committed). -/
def apply_op (db : DB) : EngineOp → DB
  | .answer url p uid adm auto =>
    match answer_question db url p uid adm auto with
    | .ok res => res.db
    | .error _ => db
  | .joker url p uid adm =>
    match use_joker db url p uid adm with
    | .ok (db2, _) => db2
    | .error _ => db
  | .state url uid adm =>
    match get_game_state db url uid adm with
    | .ok out => out.db
    | .error _ => db
  | .advance gid rid => (maybe_create_next_round_after_answer db gid rid).1

/-- Shape of a state produced by GameService.create_game: no joker usages yet,
all grid cells unanswered, and a single round with round_number 1. -/
def is_creation_state (db : DB) : Bool :=
  db.grids.all (fun c => c.round_id.isNone) &&
  db.jokers_used.isEmpty &&
  (match db.rounds with
   | [r] => r.round_number == 1
   | _ => false)

/-- States reachable by the engine: a freshly created game followed by any
sequence of engine operations. -/
inductive Reachable : DB → Prop where
  | init (db : DB) : is_creation_state db = true → Reachable db
  | step (db : DB) (op : EngineOp) : Reachable db → Reachable (apply_op db op)

/-!
Board generation (GameService.create_game).

The Python code draws all randomness from random.Random(payload.seed), a
generator fully determined by the integer seed; it is modelled here by a
64-bit linear congruential generator with the same interface (randbelow,
shuffle, choice). The determinism theorems do not depend on the concrete
constants, only on the generator being a function of the seed. The slug
generator (secrets.choice, not seeded) is modelled as an oracle giving the
successive generated urls.
-/

/-- Deterministic generator state standing for random.Random. -/
structure Rng where
  state : Nat
deriving Repr, DecidableEq

/-- One step of the generator (64-bit LCG). -/
def rng_step (s : Nat) : Nat :=
  (s * 6364136223846793005 + 1442695040888963407) % 2 ^ 64

/-- random.Random(seed): the initial state is a function of the seed alone. -/
def mk_rng (seed : Int) : Rng :=
  { state := rng_step (seed.emod (2 ^ 64)).toNat }

/-- Random._randbelow(n): a draw in [0, n). -/
def randbelow (g : Rng) (n : Nat) : Nat × Rng :=
  let s := rng_step g.state
  ((s / 2 ^ 32) % (if n == 0 then 1 else n), { state := s })

/-- Swap two positions of a list (out-of-range indices leave it unchanged). -/
def list_swap {α : Type} (l : List α) (i j : Nat) : List α :=
  match l.get? i, l.get? j with
  | some x, some y => (l.set i y).set j x
  | _, _ => l

/-- Fisher-Yates loop of random.shuffle: for i from n-1 down to 1, draw
j below i+1 and swap positions i and j. -/
def shuffle_go {α : Type} (l : List α) (g : Rng) : Nat → List α × Rng
  | 0 => (l, g)
  | k + 1 =>
    let p := randbelow g (k + 2)
    shuffle_go (list_swap l (k + 1) p.1) p.2 k

/-- random.shuffle on a list value. -/
def shuffle {α : Type} (g : Rng) (l : List α) : List α × Rng :=
  shuffle_go l g (l.length - 1)

/-- random.choice: index drawn below the length (none on an empty list, where
Python raises IndexError). -/
def choice {α : Type} (g : Rng) (l : List α) : Option α × Rng :=
  let p := randbelow g l.length
  (l.get? p.1, p.2)

/-- Url retry loop of create_game: the i-th attempt uses oracle i; after ten
colliding attempts the creation fails with Conflict. -/
def gen_url_go (oracle : Nat → String) (existing : List String) :
    Nat → Nat → Except EngineError String
  | _, 0 => .error (.conflict "GAME_URL_GENERATION_FAILED")
  | i, fuel + 1 =>
    if existing.contains (oracle i) then
      if 10 ≤ i + 1 then .error (.conflict "GAME_URL_GENERATION_FAILED")
      else gen_url_go oracle existing (i + 1) fuel
    else .ok (oracle i)

/-- Unique-url generation of create_game (generate url, retry while taken). -/
def generate_unique_game_url (oracle : Nat → String) (existing : List String) :
    Except EngineError String :=
  gen_url_go oracle existing 0 10

/-- Entry of GameCreateIn.players. -/
structure PlayerCreateIn where
  name : String
  color_id : Nat
  theme_id : Nat
deriving Repr, DecidableEq

/-- GameCreateIn payload of create_game (board-relevant fields). -/
structure GameCreateIn where
  seed : Int
  rows_number : Nat
  columns_number : Nat
  with_pawns : Bool
  number_of_questions_by_player : Nat
  players : List PlayerCreateIn
  general_theme_ids : List Nat
deriving Repr, DecidableEq

/-- A player row as created by create_game: payload fields plus the turn order
(1-based position in the shuffled payload). -/
structure CreatedPlayer where
  name : String
  color_id : Nat
  theme_id : Nat
  order : Nat
deriving Repr, DecidableEq

/-- First element of a created-player list under ORDER BY order ASC LIMIT 1. -/
def min_created_by_order : List CreatedPlayer → Option CreatedPlayer
  | [] => none
  | p :: ps =>
    match min_created_by_order ps with
    | none => some p
    | some q => if p.order ≤ q.order then some p else some q

/-- get_next_player_in_game(game.id, current_order=0) over the created
players: smallest order above 0, else smallest order. -/
def first_player_of (players : List CreatedPlayer) : Option CreatedPlayer :=
  match min_created_by_order (players.filter (fun p => 0 < p.order)) with
  | some p => some p
  | none => min_created_by_order players

/-- Question-id pool per theme, as an association list. -/
def pool_get (pool : List (Nat × List Nat)) (tid : Nat) : List Nat :=
  match pool.lookup tid with
  | some l => l
  | none => []

/-- Replace the pool of one theme. -/
def pool_set (pool : List (Nat × List Nat)) (tid : Nat) (l : List Nat) :
    List (Nat × List Nat) :=
  pool.map (fun e => if e.1 == tid then (e.1, l) else e)

/-- sorted(set(...)) over theme ids. -/
def sorted_unique (l : List Nat) : List Nat :=
  (l.eraseDups).insertionSort (fun a b => a ≤ b)

/-- Pool construction loop of create_game: for each needed theme in ascending
order, load its question ids and shuffle them with the seeded generator. -/
def build_pools (load_question_ids : Nat → List Nat) (g : Rng) :
    List Nat → List (Nat × List Nat) × Rng
  | [] => ([], g)
  | tid :: rest =>
    let p := shuffle g (load_question_ids tid)
    let others := build_pools load_question_ids p.2 rest
    ((tid, p.1) :: others.1, others.2)

/-- Pop the last n elements of a pool list: the popped elements in pop order
and the remaining pool. -/
def draw_last_n (l : List Nat) (n : Nat) : List Nat × List Nat :=
  (l.reverse.take n, l.take (l.length - n))

/-- Player-question draw loop of create_game: for each player theme in turn
order, fail if the pool is smaller than the requested count, else pop that
many ids from the end of the pool. -/
def draw_player_questions (need : Nat) :
    List Nat → List (Nat × List Nat) →
    Except EngineError (List Nat × List (Nat × List Nat))
  | [], pool => .ok ([], pool)
  | tid :: rest, pool =>
    if (pool_get pool tid).length < need then
      .error (.conflict "NOT_ENOUGH_QUESTIONS_FOR_PLAYER_THEME")
    else
      let drawn := draw_last_n (pool_get pool tid) need
      match draw_player_questions need rest (pool_set pool tid drawn.2) with
      | .error e => .error e
      | .ok (more, pool2) => .ok (drawn.1 ++ more, pool2)

/-- General-question draw loop of create_game: choose a random general theme,
fall back to a random non-empty general theme when its pool is exhausted, fail
when every general pool is empty, and pop one id from the end. -/
def draw_general_questions (general_theme_ids : List Nat) :
    Nat → List (Nat × List Nat) → Rng →
    Except EngineError (List Nat × List (Nat × List Nat) × Rng)
  | 0, pool, g => .ok ([], pool, g)
  | k + 1, pool, g =>
    let c0 := choice g general_theme_ids
    match c0.1 with
    | none => .error (.conflict "NOT_ENOUGH_QUESTIONS_FOR_GENERAL_THEMES")
    | some tid0 =>
      let picked : Except EngineError (Nat × Rng) :=
        if (pool_get pool tid0).isEmpty then
          let non_empty := general_theme_ids.filter
            (fun x => !(pool_get pool x).isEmpty)
          if non_empty.isEmpty then
            .error (.conflict "NOT_ENOUGH_QUESTIONS_FOR_GENERAL_THEMES")
          else
            let c1 := choice c0.2 non_empty
            match c1.1 with
            | some t => .ok (t, c1.2)
            | none => .error (.conflict "NOT_ENOUGH_QUESTIONS_FOR_GENERAL_THEMES")
        else .ok (tid0, c0.2)
      match picked with
      | .error e => .error e
      | .ok (tid, g2) =>
        match (pool_get pool tid).reverse with
        | [] => .error (.conflict "NOT_ENOUGH_QUESTIONS_FOR_GENERAL_THEMES")
        | q :: rest_rev =>
          match draw_general_questions general_theme_ids k
              (pool_set pool tid rest_rev.reverse) g2 with
          | .error e => .error e
          | .ok (more, pool2, g3) => .ok (q :: more, pool2, g3)

/-- Board part of the create_game output: the created players in turn order,
the grid cells as (row, column, question_id), and the player of the first
round (round_number = 1). -/
structure CreatedBoardGame where
  players : List CreatedPlayer
  grid : List (Nat × Nat × Nat)
  first_round_player : CreatedPlayer
  first_round_number : Nat
deriving Repr, DecidableEq

/-- Seed-determined part of GameService.create_game, after the url was
allocated: duplicate-theme check, player shuffle and order assignment, pool
construction, player and general question draws, the two final shuffles of
coordinates and question ids, the zip into grid cells, and the first round for
the player of smallest order. -/
def build_board (payload : GameCreateIn) (load_question_ids : Nat → List Nat) :
    Except EngineError CreatedBoardGame :=
  let theme_ids := payload.players.map (fun p => p.theme_id)
  if theme_ids.length != theme_ids.eraseDups.length then
    .error (.conflict "DUPLICATE_PLAYER_THEMES_NOT_ALLOWED")
  else
    let rng0 := mk_rng payload.seed
    let sh := shuffle rng0 payload.players
    let created_players := sh.1.enum.map (fun e =>
      { name := e.2.name, color_id := e.2.color_id, theme_id := e.2.theme_id,
        order := e.1 + 1 : CreatedPlayer })
    let rows := payload.rows_number
    let cols := payload.columns_number
    let grid_size := rows * cols
    let nb_players := payload.players.length
    let player_q_total := nb_players * payload.number_of_questions_by_player
    let general_q_total : Int := (grid_size : Int) - (player_q_total : Int)
    if general_q_total < 0 then
      .error (.conflict "GRID_TOO_SMALL_FOR_REQUESTED_PLAYER_QUESTIONS")
    else if payload.general_theme_ids.isEmpty then
      .error (.conflict "GENERAL_THEMES_REQUIRED")
    else
      let player_theme_ids := created_players.map (fun p => p.theme_id)
      let general_theme_ids := payload.general_theme_ids.filter
        (fun tid => !(player_theme_ids.contains tid))
      if general_theme_ids.isEmpty then .error (.conflict "GENERAL_THEMES_REQUIRED")
      else
        let theme_ids_needed := sorted_unique (player_theme_ids ++ general_theme_ids)
        let pl := build_pools load_question_ids sh.2 theme_ids_needed
        match draw_player_questions payload.number_of_questions_by_player
            player_theme_ids pl.1 with
        | .error e => .error e
        | .ok (player_selected_qids, pool2) =>
          match draw_general_questions general_theme_ids general_q_total.toNat
              pool2 pl.2 with
          | .error e => .error e
          | .ok (general_selected_qids, _, rng3) =>
            let coords := (List.range rows).flatMap (fun r =>
              (List.range cols).map (fun c => (r, c)))
            let shc := shuffle rng3 coords
            let all_qids := player_selected_qids ++ general_selected_qids
            let shq := shuffle shc.2 all_qids
            if shq.1.length != grid_size then
              .error (.conflict "GRID_FILL_COUNT_MISMATCH")
            else
              let grid := (shc.1.zip shq.1).map (fun e => (e.1.1, e.1.2, e.2))
              match first_player_of created_players with
              | none => .error (.conflict "GAME_HAS_NO_PLAYERS")
              | some fp =>
                .ok { players := created_players, grid := grid,
                      first_round_player := fp, first_round_number := 1 }

/-- Output of create_game: the allocated url and the seed-determined board. -/
structure CreatedGameFull where
  url : String
  board : CreatedBoardGame
deriving Repr, DecidableEq

/-- GameService.create_game: allocate a unique url (bounded retry on the
unseeded slug oracle), then build the board from the seeded generator; all
rows commit as one transaction at the end, so an error at any point leaves
nothing persisted. -/
def create_game (url_oracle : Nat → String) (existing_urls : List String)
    (payload : GameCreateIn) (load_question_ids : Nat → List Nat) :
    Except EngineError CreatedGameFull :=
  match generate_unique_game_url url_oracle existing_urls with
  | .error e => .error e
  | .ok url =>
    match build_board payload load_question_ids with
    | .error e => .error e
    | .ok b => .ok { url := url, board := b }

/-!
Bonus ranking (GameService.get_game_results, inner _rank_points_from_metric).
-/

/-- BONUS_RANK_POINTS dict: rank 1 gives 5 points, rank 2 gives 3, rank 3
gives 1, anything else 0. -/
def BONUS_RANK_POINTS (rank : Nat) : Int :=
  if rank == 1 then 5 else if rank == 2 then 3 else if rank == 3 then 1 else 0

/-- Order of metric.items() under the sort key (-value, player_id): a comes
before b when its value is larger, or on equal values when its player id is
not larger. -/
def metric_rel (a b : Nat × Int) : Prop :=
  b.2 < a.2 ∨ (a.2 = b.2 ∧ a.1 ≤ b.1)

instance : DecidableRel metric_rel := fun a b => by
  unfold metric_rel
  infer_instance

instance : IsTotal (Nat × Int) metric_rel := by
  constructor
  intro a b
  unfold metric_rel
  omega

instance : IsTrans (Nat × Int) metric_rel := by
  constructor
  intro a b c hab hbc
  unfold metric_rel at hab hbc ⊢
  omega

/-- The sort of metric.items() with key (-value, player_id): descending by
value, ties ordered by player id. -/
def sort_metric (metric : List (Nat × Int)) : List (Nat × Int) :=
  metric.insertionSort metric_rel

/-- One ranking line: competition rank, player id and metric value. -/
structure RankEntry where
  rank : Nat
  player_id : Nat
  value : Int
deriving Repr, DecidableEq

/-- Ranking loop of _rank_points_from_metric: index counts 1-based positions,
rank jumps to the position whenever the value differs from the previous one. -/
def rank_loop : List (Nat × Int) → Option Int → Nat → Nat → List RankEntry
  | [], _, _, _ => []
  | (pid, v) :: rest, prev_value, rank, index =>
    let index1 := index + 1
    let rank1 := if prev_value == some v then rank else index1
    { rank := rank1, player_id := pid, value := v } ::
      rank_loop rest (some v) rank1 index1

/-- GameService.get_game_results._rank_points_from_metric: the ranking list in
sorted order, and the bonus points per player (the dict accumulation becomes a
sum over the entries of that player). -/
def rank_points_from_metric (metric : List (Nat × Int)) :
    List RankEntry × (Nat → Int) :=
  let ranking := rank_loop (sort_metric metric) none 0 0
  (ranking, fun pid =>
    ((ranking.filter (fun e => e.player_id == pid)).map
      (fun e => BONUS_RANK_POINTS e.rank)).sum)


/-!
Concrete fixtures used by witnesses and counterexamples.
-/

/-- Sample game: 2 by 2 board, not finished, no pawns. -/
def sample_game : Game :=
  { id := 1, owner_id := 1, seed := 0, url := "g-x", rows_number := 2,
    columns_number := 2, finished := false, with_pawns := false }

/-- Sample 2 by 2 board with 3 players in which the first k cells are
resolved. -/
def sample_2x2_db (k : Nat) : DB :=
  { games := [sample_game],
    players := [
      { id := 1, game_id := 1, color_id := 1, theme_id := 10, name := "A",
        order := 1, pawn_row := none, pawn_col := none },
      { id := 2, game_id := 1, color_id := 2, theme_id := 20, name := "B",
        order := 2, pawn_row := none, pawn_col := none },
      { id := 3, game_id := 1, color_id := 3, theme_id := 30, name := "C",
        order := 3, pawn_row := none, pawn_col := none }],
    rounds := [{ id := 1, player_id := 1, round_number := 1 }],
    grids := (List.range 4).map (fun i =>
      { id := i + 1, game_id := 1,
        round_id := if i < k then some (i + 1) else none,
        question_id := 101 + i, correct_answer := false, skip_answer := false,
        row := i / 2, column := i % 2 }),
    questions := (List.range 4).map (fun i =>
      { id := 101 + i, theme_id := 40, points := 1 }),
    theme_ids := [10, 20, 30, 40],
    jokers_in_game := [{ id := 5, joker_id := 7, game_id := 1 }],
    jokers_used := [],
    next_round_id := 2, next_usage_id := 1 }

/-- Joker payload used by the counterexamples: the sample instance on the
pending first round. -/
def sample_joker_payload : JokerUseIn :=
  { joker_in_game_id := 5, round_id := 1, target_player_id := none,
    target_grid_id := none }

/-- Answer payload used by the counterexamples: cell 1 answered correctly on
round 1. -/
def sample_answer_payload : AnswerCreateIn :=
  { grid_id := 1, round_id := 1, correct_answer := true, skip_answer := false }

/-- Sample create_game payload: 2 by 2 board, two players with themes 10 and
20, one question each, general theme 40. -/
def sample_create_in : GameCreateIn :=
  { seed := 42, rows_number := 2, columns_number := 2, with_pawns := false,
    number_of_questions_by_player := 1,
    players := [{ name := "A", color_id := 1, theme_id := 10 },
                { name := "B", color_id := 2, theme_id := 20 }],
    general_theme_ids := [40] }

/-- Sample question pools per theme for board generation. -/
def sample_load : Nat → List Nat := fun tid =>
  if tid == 10 then [101]
  else if tid == 20 then [102]
  else if tid == 40 then [103, 104] else []

/-- State reached from the freshly created sample game by using the same joker
instance twice on the same (pending) round. -/
def c3_state_two_uses : DB :=
  apply_op (apply_op (sample_2x2_db 0)
    (.joker "g-x" sample_joker_payload 1 false))
    (.joker "g-x" sample_joker_payload 1 false)

/-!
Shared helper lemmas.
-/

/-- A skipped cell scores as the zero scoring. -/
lemma score_cell_skip (players_out : List PlayerOut) (used_rows : List UsageRow)
    (apid : Nat) (cell : ScoredCell) (rid : Nat) (h : cell.skip_answer = true) :
    score_cell players_out used_rows apid cell rid = zeroScoring := by
  simp [score_cell, h]

/-- Removing a list element on which the filter predicate is false does not
change the filter. -/
lemma filter_middle_false {α : Type} (p : α → Bool) (u : α) (l1 l2 : List α)
    (h : p u = false) : (l1 ++ u :: l2).filter p = (l1 ++ l2).filter p := by
  simp [List.filter_append, List.filter_cons, h]

/-- Sum of an indicator map over a list avoiding the marked element. -/
lemma sum_indicator_zero (l : List Nat) (a : Nat) (x : Int) (h : a ∉ l) :
    (l.map (fun b => if b = a then x else 0)).sum = 0 := by
  induction l with
  | nil => simp
  | cons c s ih =>
    have hca : c ≠ a := by
      intro hce
      exact h (hce ▸ List.mem_cons_self c s)
    have hns : a ∉ s := fun hm => h (List.mem_cons_of_mem c hm)
    simp [hca, ih hns]

/-- Sum of an indicator map over a list without duplicates containing the
marked element. -/
lemma sum_indicator (l : List Nat) (a : Nat) (x : Int) (hnd : l.Nodup)
    (hm : a ∈ l) : (l.map (fun b => if b = a then x else 0)).sum = x := by
  induction l with
  | nil => cases hm
  | cons b t ih =>
    rcases List.mem_cons.mp hm with hba | hat
    · have hbb : b = a := hba.symm
      have hnt : a ∉ t := by
        rw [hba]
        exact (List.nodup_cons.mp hnd).1
      simp [hbb, sum_indicator_zero t a x hnt]
    · have hba2 : b ≠ a := by
        intro hbe
        exact (List.nodup_cons.mp hnd).1 (hbe ▸ hat)
      simp [hba2, ih (List.nodup_cons.mp hnd).2 hat]

/-!
C2: skipped cells produce a zero delta, suppress every joker effect, and
contribute nothing to the bonus metrics.
-/

/-- C2: for every resolved grid cell with skip_answer true, the scoring replay
engine produces a delta of exactly zero for every player for that round,
suppressing the base rule and the x2, All-In, Call-a-Friend and Gamble
effects, the cell contributes nothing to the cumulative scores, and nothing to
the inflicted, suffered or attempted bonus metrics. -/
theorem c2_skip_cell_nullifies_everything
    (players_out : List PlayerOut) (used_rows : List UsageRow)
    (round_to_player_id : List (Nat × Nat)) (apid rid pid : Nat)
    (cell : ScoredCell) (l1 l2 : List ScoredCell)
    (h : cell.skip_answer = true) :
    (score_cell players_out used_rows apid cell rid).delta pid = 0 ∧
    (score_cell players_out used_rows apid cell rid).inflicted pid = 0 ∧
    (score_cell players_out used_rows apid cell rid).suffered pid = 0 ∧
    (score_cell players_out used_rows apid cell rid).attempted pid = 0 ∧
    timeline_scores players_out round_to_player_id used_rows (l1 ++ cell :: l2) pid =
      timeline_scores players_out round_to_player_id used_rows (l1 ++ l2) pid ∧
    timeline_metric (fun s => s.inflicted) players_out round_to_player_id used_rows
        (l1 ++ cell :: l2) pid =
      timeline_metric (fun s => s.inflicted) players_out round_to_player_id used_rows
        (l1 ++ l2) pid ∧
    timeline_metric (fun s => s.suffered) players_out round_to_player_id used_rows
        (l1 ++ cell :: l2) pid =
      timeline_metric (fun s => s.suffered) players_out round_to_player_id used_rows
        (l1 ++ l2) pid ∧
    timeline_metric (fun s => s.attempted) players_out round_to_player_id used_rows
        (l1 ++ cell :: l2) pid =
      timeline_metric (fun s => s.attempted) players_out round_to_player_id used_rows
        (l1 ++ l2) pid := by
  have hz := score_cell_skip players_out used_rows apid cell rid h
  have hcontrib : cell_contrib players_out round_to_player_id used_rows cell pid = 0 := by
    unfold cell_contrib
    rcases cell_round_ctx round_to_player_id cell with _ | ⟨r, a⟩
    · rfl
    · show (score_cell players_out used_rows a cell r).delta pid = 0
      rw [score_cell_skip players_out used_rows a cell r h]
      rfl
  have hmetric : ∀ sel : RoundScoring → Nat → Int, sel zeroScoring pid = 0 →
      cell_metric_contrib sel players_out round_to_player_id used_rows cell pid = 0 := by
    intro sel hsel
    unfold cell_metric_contrib
    rcases cell_round_ctx round_to_player_id cell with _ | ⟨r, a⟩
    · rfl
    · show sel (score_cell players_out used_rows a cell r) pid = 0
      rw [score_cell_skip players_out used_rows a cell r h]
      exact hsel
  refine ⟨by rw [hz]; rfl, by rw [hz]; rfl, by rw [hz]; rfl, by rw [hz]; rfl, ?_, ?_, ?_, ?_⟩
  · simp [timeline_scores, hcontrib]
  · simp [timeline_metric, hmetric (fun s => s.inflicted) rfl]
  · simp [timeline_metric, hmetric (fun s => s.suffered) rfl]
  · simp [timeline_metric, hmetric (fun s => s.attempted) rfl]

/-- C2 witness: concrete skipped cell with a joker activated on its round and
a gamble targeting it. -/
theorem c2_skip_cell_nullifies_everything_witness :
    (ScoredCell.mk 3 (some 4) true true 5 10).skip_answer = true ∧
    (score_cell [PlayerOut.mk 1 10, PlayerOut.mk 2 20]
      [UsageRow.mk 1 4 2 "x2" none none, UsageRow.mk 2 4 2 "Gamble" none (some 3)]
      2 (ScoredCell.mk 3 (some 4) true true 5 10) 4).delta 2 = 0 := by
  refine ⟨rfl, ?_⟩
  have h := c2_skip_cell_nullifies_everything
    [PlayerOut.mk 1 10, PlayerOut.mk 2 20]
    [UsageRow.mk 1 4 2 "x2" none none, UsageRow.mk 2 4 2 "Gamble" none (some 3)]
    [] 2 4 2 (ScoredCell.mk 3 (some 4) true true 5 10) [] [] rfl
  exact h.1

/-!
C10: a correct, non-skipped answer on a general theme (owned by no player)
gives the answering player the points and everyone else zero.
-/

/-- Round-joker filters are empty when no usage row matches the round and the
answering player. -/
lemma round_jokers_eq_nil (used_rows : List UsageRow) (rid apid : Nat)
    (name : String)
    (h : ∀ u ∈ used_rows, ¬(u.round_id = rid ∧ u.using_player_id = apid)) :
    round_jokers used_rows rid apid name = [] := by
  unfold round_jokers
  rw [List.filter_eq_nil_iff]
  intro u hu
  rcases Decidable.em (u.round_id = rid) with h1 | h1
  · have h2 : u.using_player_id ≠ apid := fun he => h u hu ⟨h1, he⟩
    simp [h1, h2]
  · simp [h1]

/-- The gamble index of a cell is empty when no usage gambles on it. -/
lemma gambles_for_grid_eq_nil (used_rows : List UsageRow) (gid : Nat)
    (h : ∀ u ∈ used_rows,
      ¬(u.joker_name = JOKER_GAMBLE ∧ u.target_grid_id = some gid)) :
    gambles_for_grid used_rows gid = [] := by
  unfold gambles_for_grid
  rw [List.filter_eq_nil_iff]
  intro u hu
  rcases Decidable.em (u.joker_name = JOKER_GAMBLE) with h1 | h1
  · cases ht : u.target_grid_id with
    | none => simp [ht]
    | some t =>
      have h3 : t ≠ gid := fun he2 => h u hu ⟨h1, by rw [ht, he2]⟩
      simp [h1, ht, h3]
  · simp [h1]

/-- C10: for a resolved, non-skipped, correct cell whose question theme is
owned by no player of the game, and with no joker activated on its round by
the answerer and no gamble targeting it, the replay delta of that round gives
the answering player the cell points, every other player exactly zero (no
owner penalty is applied to anyone), and the round total over the players
equals the cell points instead of zero. -/
theorem c10_general_theme_correct_round (players_out : List PlayerOut)
    (used_rows : List UsageRow) (apid rid : Nat) (cell : ScoredCell)
    (hskip : cell.skip_answer = false) (hcorr : cell.correct_answer = true)
    (howner : theme_owner players_out cell.question_theme_id = none)
    (hjokers : ∀ u ∈ used_rows, ¬(u.round_id = rid ∧ u.using_player_id = apid))
    (hgamble : ∀ u ∈ used_rows,
      ¬(u.joker_name = JOKER_GAMBLE ∧ u.target_grid_id = some cell.id))
    (hnd : (players_out.map (fun p => p.id)).Nodup)
    (hmem : apid ∈ players_out.map (fun p => p.id)) :
    (score_cell players_out used_rows apid cell rid).delta apid = cell.question_points ∧
    (∀ pid, pid ≠ apid →
      (score_cell players_out used_rows apid cell rid).delta pid = 0) ∧
    (players_out.map (fun p =>
      (score_cell players_out used_rows apid cell rid).delta p.id)).sum =
      cell.question_points := by
  have hx2 := round_jokers_eq_nil used_rows rid apid JOKER_X2 hjokers
  have hallin := round_jokers_eq_nil used_rows rid apid JOKER_ALL_IN hjokers
  have happel := round_jokers_eq_nil used_rows rid apid JOKER_APPEL hjokers
  have hg := gambles_for_grid_eq_nil used_rows cell.id hgamble
  have hdelta : ∀ pid, (score_cell players_out used_rows apid cell rid).delta pid =
      if pid = apid then cell.question_points else 0 := by
    intro pid
    simp [score_cell, hskip, base_delta, x2_delta, all_in_delta, appel_delta,
      gamble_delta, has_x2, all_in_count, appel_targets, cell_gambles,
      owner_hit, hx2, hallin, happel, hg, howner, hcorr]
  refine ⟨by simp [hdelta], fun pid hpid => by simp [hdelta, hpid], ?_⟩
  have hmap : players_out.map (fun p =>
      (score_cell players_out used_rows apid cell rid).delta p.id) =
      (players_out.map (fun p => p.id)).map
        (fun b => if b = apid then cell.question_points else 0) := by
    rw [List.map_map]
    exact List.map_congr_left (fun p _ => hdelta p.id)
  rw [hmap]
  exact sum_indicator (players_out.map (fun p => p.id)) apid cell.question_points hnd hmem

/-- C10 witness: two players with themes 10 and 20, a correct answer on a cell
of general theme 40 worth 7 points. -/
theorem c10_general_theme_correct_round_witness :
    (score_cell [PlayerOut.mk 1 10, PlayerOut.mk 2 20] [] 1
      (ScoredCell.mk 3 (some 4) true false 7 40) 4).delta 1 = 7 ∧
    (score_cell [PlayerOut.mk 1 10, PlayerOut.mk 2 20] [] 1
      (ScoredCell.mk 3 (some 4) true false 7 40) 4).delta 2 = 0 := by
  have h := c10_general_theme_correct_round [PlayerOut.mk 1 10, PlayerOut.mk 2 20]
    [] 1 4 (ScoredCell.mk 3 (some 4) true false 7 40) rfl rfl (by decide)
    (by intro u hu; cases hu) (by intro u hu; cases hu) (by decide) (by decide)
  exact ⟨h.1, h.2.1 2 (by decide)⟩

/-!
C7: the bonus ranking engine (competition ranking with 5/3/1 placement
points).
-/

/-- The ranking entries carry exactly the sorted (player, value) pairs. -/
lemma rank_loop_payload : ∀ (l : List (Nat × Int)) (pv : Option Int) (r i : Nat),
    (rank_loop l pv r i).map (fun e => (e.player_id, e.value)) = l := by
  intro l
  induction l with
  | nil => intro pv r i; rfl
  | cons a t ih =>
    intro pv r i
    obtain ⟨pid, v⟩ := a
    simp [rank_loop, ih]

/-- The first ranking entry has rank 1. -/
lemma rank_loop_head_rank (l : List (Nat × Int)) (e : RankEntry)
    (h : (rank_loop l none 0 0)[0]? = some e) : e.rank = 1 := by
  cases l with
  | nil => simp [rank_loop] at h
  | cons a t =>
    obtain ⟨pid, v⟩ := a
    simp [rank_loop] at h
    rw [← h]

/-- Rank recurrence of the ranking loop: consecutive entries share the rank
exactly when they share the value, and a new value takes its 1-based position
(offset by the starting index of the loop). -/
lemma rank_loop_rank_rec : ∀ (l : List (Nat × Int)) (pv : Option Int)
    (r i j : Nat) (e1 e2 : RankEntry),
    (rank_loop l pv r i)[j]? = some e1 →
    (rank_loop l pv r i)[j + 1]? = some e2 →
    e2.rank = if e2.value = e1.value then e1.rank else i + j + 2 := by
  intro l
  induction l with
  | nil => intro pv r i j e1 e2 h1 h2; simp [rank_loop] at h1
  | cons a t ih =>
    intro pv r i j e1 e2 h1 h2
    obtain ⟨pid, v⟩ := a
    cases j with
    | zero =>
      rw [show rank_loop ((pid, v) :: t) pv r i =
        RankEntry.mk (if pv == some v then r else i + 1) pid v ::
          rank_loop t (some v) (if pv == some v then r else i + 1) (i + 1) from rfl]
        at h1 h2
      rw [List.getElem?_cons_zero] at h1
      rw [List.getElem?_cons_succ] at h2
      cases t with
      | nil => simp [rank_loop] at h2
      | cons b s =>
        obtain ⟨pid2, v2⟩ := b
        rw [show rank_loop ((pid2, v2) :: s) (some v)
            (if pv == some v then r else i + 1) (i + 1) =
          RankEntry.mk (if some v == some v2 then
              (if pv == some v then r else i + 1) else i + 2) pid2 v2 ::
            rank_loop s (some v2) (if some v == some v2 then
              (if pv == some v then r else i + 1) else i + 2) (i + 2) from rfl] at h2
        rw [List.getElem?_cons_zero] at h2
        have he1 : e1 = RankEntry.mk (if pv == some v then r else i + 1) pid v :=
          (Option.some_injective _ h1).symm
        have he2 : e2 = RankEntry.mk (if some v == some v2 then
            (if pv == some v then r else i + 1) else i + 2) pid2 v2 :=
          (Option.some_injective _ h2).symm
        rw [he1, he2]
        by_cases hv : v2 = v
        · subst hv
          simp
        · have hb : (some v == some v2) = false := by
            simp only [beq_eq_false_iff_ne, ne_eq, Option.some.injEq]
            exact fun he => hv he.symm
          simp [hb, hv]
    | succ j0 =>
      rw [show rank_loop ((pid, v) :: t) pv r i =
        RankEntry.mk (if pv == some v then r else i + 1) pid v ::
          rank_loop t (some v) (if pv == some v then r else i + 1) (i + 1) from rfl]
        at h1 h2
      rw [List.getElem?_cons_succ] at h1 h2
      have hres := ih (some v) (if pv == some v then r else i + 1) (i + 1) j0 e1 e2 h1 h2
      have harith : i + 1 + j0 + 2 = i + (j0 + 1) + 2 := by omega
      rw [harith] at hres
      exact hres

/-- In a ranking whose player ids are distinct, the entries of a given player
reduce to that single entry. -/
lemma ranking_filter_single (l : List RankEntry) (e : RankEntry)
    (hnd : (l.map (fun x => x.player_id)).Nodup) (he : e ∈ l) :
    l.filter (fun x => x.player_id == e.player_id) = [e] := by
  induction l with
  | nil => cases he
  | cons a t ih =>
    rw [List.map_cons] at hnd
    have hhead : a.player_id ∉ t.map (fun x => x.player_id) :=
      (List.nodup_cons.mp hnd).1
    have htail : (t.map (fun x => x.player_id)).Nodup := (List.nodup_cons.mp hnd).2
    rcases List.mem_cons.mp he with hea | het
    · subst hea
      have ht : t.filter (fun x => x.player_id == e.player_id) = [] := by
        rw [List.filter_eq_nil_iff]
        intro x hx
        have hne : x.player_id ≠ e.player_id := fun hxe =>
          hhead (hxe ▸ List.mem_map_of_mem (fun y => y.player_id) hx)
        simp [hne]
      rw [List.filter_cons_of_pos (by simp), ht]
    · have hpa : (e.player_id == e.player_id) = true := by simp
      have hne : (a.player_id == e.player_id) = false := by
        simp only [beq_eq_false_iff_ne, ne_eq]
        intro hae
        exact hhead (by rw [hae]; exact List.mem_map_of_mem (fun y => y.player_id) het)
      rw [List.filter_cons_of_neg (by simp [hne]), ih htail het]

/-- C7: the bonus ranking sorts the players descending by metric value,
computes competition ranks (the first entry has rank 1, consecutive equal
values share the rank, a new value takes its 1-based position), awards the
rank points of BONUS_RANK_POINTS (5, 3, 1, then 0) in full to every tied
player, and on metric values [10, 10, 7, 7, 2] yields ranks [1, 1, 3, 3, 5]
and bonus points [5, 5, 1, 1, 0]. -/
theorem c7_bonus_ranking (metric : List (Nat × Int)) :
    ((rank_points_from_metric metric).1.map (fun e => (e.player_id, e.value)) =
      sort_metric metric) ∧
    List.Pairwise (fun e1 e2 : RankEntry => e2.value ≤ e1.value)
      (rank_points_from_metric metric).1 ∧
    (∀ e, ((rank_points_from_metric metric).1)[0]? = some e → e.rank = 1) ∧
    (∀ j e1 e2, ((rank_points_from_metric metric).1)[j]? = some e1 →
      ((rank_points_from_metric metric).1)[j + 1]? = some e2 →
      e2.rank = if e2.value = e1.value then e1.rank else j + 2) ∧
    ((metric.map Prod.fst).Nodup → ∀ e ∈ (rank_points_from_metric metric).1,
      (rank_points_from_metric metric).2 e.player_id = BONUS_RANK_POINTS e.rank) ∧
    ((rank_points_from_metric [(1, 10), (2, 10), (3, 7), (4, 7), (5, 2)]).1.map
        (fun e => e.rank) = [1, 1, 3, 3, 5] ∧
      (rank_points_from_metric [(1, 10), (2, 10), (3, 7), (4, 7), (5, 2)]).2 1 = 5 ∧
      (rank_points_from_metric [(1, 10), (2, 10), (3, 7), (4, 7), (5, 2)]).2 2 = 5 ∧
      (rank_points_from_metric [(1, 10), (2, 10), (3, 7), (4, 7), (5, 2)]).2 3 = 1 ∧
      (rank_points_from_metric [(1, 10), (2, 10), (3, 7), (4, 7), (5, 2)]).2 4 = 1 ∧
      (rank_points_from_metric [(1, 10), (2, 10), (3, 7), (4, 7), (5, 2)]).2 5 = 0) := by
  have hpay : (rank_points_from_metric metric).1.map (fun e => (e.player_id, e.value)) =
      sort_metric metric :=
    rank_loop_payload (sort_metric metric) none 0 0
  refine ⟨hpay, ?_, ?_, ?_, ?_, by decide⟩
  · have hs : List.Sorted metric_rel (sort_metric metric) :=
      List.sorted_insertionSort metric_rel metric
    have hs2 : List.Pairwise (fun a b : Nat × Int => b.2 ≤ a.2) (sort_metric metric) := by
      refine hs.imp ?_
      intro a b hab
      unfold metric_rel at hab
      omega
    rw [← hpay] at hs2
    exact (List.pairwise_map.mp hs2).imp (fun h => h)
  · exact fun e he => rank_loop_head_rank (sort_metric metric) e he
  · intro j e1 e2 h1 h2
    have hres := rank_loop_rank_rec (sort_metric metric) none 0 0 j e1 e2 h1 h2
    have h0 : 0 + j + 2 = j + 2 := by omega
    rw [h0] at hres
    exact hres
  · intro hnd e he
    have hndr : ((rank_points_from_metric metric).1.map
        (fun x => x.player_id)).Nodup := by
      have hperm : List.Perm (sort_metric metric) metric :=
        List.perm_insertionSort metric_rel metric
      have hpermf : List.Perm ((sort_metric metric).map Prod.fst)
          (metric.map Prod.fst) := hperm.map Prod.fst
      have hnds : ((sort_metric metric).map Prod.fst).Nodup :=
        (hpermf.nodup_iff).mpr hnd
      have : (rank_points_from_metric metric).1.map (fun x => x.player_id) =
          (sort_metric metric).map Prod.fst := by
        rw [← hpay, List.map_map]
        rfl
      rw [this]
      exact hnds
    have hfun : (rank_points_from_metric metric).2 e.player_id =
        (((rank_points_from_metric metric).1.filter
          (fun x => x.player_id == e.player_id)).map
            (fun x => BONUS_RANK_POINTS x.rank)).sum := rfl
    rw [hfun, ranking_filter_single (rank_points_from_metric metric).1 e hndr he]
    simp

/-- C7 witness: rank points of the theorem applied to the example metric for
player 3 (rank 3, one point). -/
theorem c7_bonus_ranking_witness :
    (rank_points_from_metric [(1, 10), (2, 10), (3, 7), (4, 7), (5, 2)]).2 3 =
      BONUS_RANK_POINTS 3 := by
  have h := (c7_bonus_ranking [(1, 10), (2, 10), (3, 7), (4, 7), (5, 2)]).2.2.2.2.1
  exact h (by decide) (RankEntry.mk 3 3 7) (by decide)

/-!
C1: end-of-game rule evaluated and persisted by get_game_state.
-/

/-- Updating only the finished flag of the game found by url leaves it the
first url match, now carrying the new flag. -/
lemma find_url_after_finish_update (l : List Game) (url : String) (game : Game)
    (h : l.find? (fun g => g.url == url) = some game) :
    (l.map (fun g => if g.id == game.id then { g with finished := true } else g)).find?
      (fun g => g.url == url) = some { game with finished := true } := by
  induction l with
  | nil => simp at h
  | cons a t ih =>
    by_cases ha : (a.url == url) = true
    · simp only [List.find?_cons, ha, if_true] at h
      have hag : a = game := Option.some_injective _ h
      subst hag
      have hmap : (if a.id == a.id then { a with finished := true } else a) =
          { a with finished := true } := by simp
      have hfu : (({ a with finished := true } : Game).url == url) = true := ha
      simp only [List.map_cons, hmap, List.find?_cons, hfu, if_true]
    · simp only [List.find?_cons, ha, if_false] at h
      have hfu : ((if (a.id == game.id) = true then
          ({ a with finished := true } : Game) else a).url == url) = false := by
        by_cases hid : (a.id == game.id) = true
        · simp only [hid, if_true]
          exact eq_false_of_ne_true ha
        · simp only [hid, if_false]
          exact eq_false_of_ne_true ha
      simp only [List.map_cons, List.find?_cons, hfu, if_false]
      exact ih h

/-- C1: for every game with p players over a grid of n joined cells, a state
query reports and persists finished exactly when the game was already finished
or the count of cells with a non-null round_id reaches
floor(n / p) * p; the updated game row is stored under the same url. -/
theorem c1_end_of_game_rule (db : DB) (url : String) (user_id : Nat)
    (is_admin : Bool) (game : Game) (out : GameStateOut)
    (hg : get_by_url db url = some game)
    (hok : get_game_state db url user_id is_admin = .ok out) :
    out.max_rounds = max_rounds_of db game.id ∧
    out.answered_count = answered_count_of db game.id ∧
    out.finished = (game.finished ||
      decide (out.answered_count ≥ out.max_rounds)) ∧
    get_by_url out.db url = some { game with finished := out.finished } := by
  simp only [get_game_state, hg] at hok
  split at hok
  · exact Except.noConfusion hok
  · split at hok
    · exact Except.noConfusion hok
    · split at hok
      next hrule =>
        have hout := Except.ok.inj hok
        rw [← hout]
        have hparts := hrule
        rw [Bool.and_eq_true] at hparts
        have hfin : game.finished = false := by
          have h2 := hparts.2
          cases hgf : game.finished
          · rfl
          · rw [hgf] at h2; cases h2
        refine ⟨rfl, rfl, ?_, ?_⟩
        · simp only [hfin, Bool.false_or]
          exact hparts.1.symm
        · exact find_url_after_finish_update db.games url game hg
      next hrule =>
        have hout := Except.ok.inj hok
        rw [← hout]
        refine ⟨rfl, rfl, ?_, ?_⟩
        · cases hgf : game.finished
          · have hr2 : decide (answered_count_of db game.id ≥
                max_rounds_of db game.id) = false := by
              cases hd : decide (answered_count_of db game.id ≥
                  max_rounds_of db game.id)
              · rfl
              · exfalso
                apply hrule
                rw [hgf, hd]
                rfl
            simp only [hgf, Bool.false_or, hr2]
          · simp [hgf]
        · have heta : { game with finished := game.finished } = game := rfl
          rw [heta]
          exact hg

/-- C1 witness: a 2 by 2 board with 3 players finishes once exactly 3 cells
are resolved (floor(4 / 3) * 3 = 3), not 4; the same query on the same board
with only 2 resolved cells does not finish the game. -/
theorem c1_end_of_game_rule_witness :
    (get_game_state (sample_2x2_db 3) "g-x" 1 false).toOption.map
      (fun o => o.finished) = some true ∧
    (get_game_state (sample_2x2_db 2) "g-x" 1 false).toOption.map
      (fun o => o.finished) = some false := by
  constructor
  · cases hok : get_game_state (sample_2x2_db 3) "g-x" 1 false with
    | error e =>
      have hfull : (get_game_state (sample_2x2_db 3) "g-x" 1 false).toOption.isSome
          = true := by decide
      rw [hok] at hfull
      cases hfull
    | ok out =>
      have h := c1_end_of_game_rule (sample_2x2_db 3) "g-x" 1 false
        sample_game out (by decide) hok
      have hfin : out.finished = true := by
        rw [h.2.2.1, h.1, h.2.1]
        decide
      simp [Except.toOption, hfin]
  · cases hok : get_game_state (sample_2x2_db 2) "g-x" 1 false with
    | error e =>
      have hfull : (get_game_state (sample_2x2_db 2) "g-x" 1 false).toOption.isSome
          = true := by decide
      rw [hok] at hfull
      cases hfull
    | ok out =>
      have h := c1_end_of_game_rule (sample_2x2_db 2) "g-x" 1 false
        sample_game out (by decide) hok
      have hfin : out.finished = false := by
        rw [h.2.2.1, h.1, h.2.1]
        decide
      simp [Except.toOption, hfin]

/-!
C6: circular next player and idempotent round creation.
-/

/-- An empty minimum means an empty list. -/
lemma min_by_order_eq_none (l : List Player) (h : min_by_order l = none) :
    l = [] := by
  cases l with
  | nil => rfl
  | cons a t =>
    exfalso
    simp only [min_by_order] at h
    cases hm : min_by_order t with
    | none =>
      simp only [hm] at h
      exact Option.noConfusion h
    | some q =>
      simp only [hm] at h
      by_cases hle : a.order ≤ q.order
      · rw [if_pos hle] at h; cases h
      · rw [if_neg hle] at h; cases h

/-- min_by_order returns a member of minimal order. -/
lemma min_by_order_spec : ∀ (l : List Player) (p : Player),
    min_by_order l = some p → p ∈ l ∧ ∀ q ∈ l, p.order ≤ q.order := by
  intro l
  induction l with
  | nil => intro p h; cases h
  | cons a t ih =>
    intro p h
    simp only [min_by_order] at h
    cases hm : min_by_order t with
    | none =>
      simp only [hm] at h
      have hap : a = p := Option.some_injective _ (by rw [h])
      subst hap
      have ht : t = [] := min_by_order_eq_none t hm
      subst ht
      exact ⟨List.mem_cons_self a [], by
        intro q hq
        rcases List.mem_cons.mp hq with hqa | hqt
        · rw [hqa]
        · cases hqt⟩
    | some q0 =>
      simp only [hm] at h
      have hspec := ih q0 hm
      by_cases hle : a.order ≤ q0.order
      · rw [if_pos hle] at h
        have hap : a = p := Option.some_injective _ h
        subst hap
        refine ⟨List.mem_cons_self a t, ?_⟩
        intro q hq
        rcases List.mem_cons.mp hq with hqa | hqt
        · rw [hqa]
        · exact le_trans hle (hspec.2 q hqt)
      · rw [if_neg hle] at h
        have hqp : q0 = p := Option.some_injective _ h
        subst hqp
        refine ⟨List.mem_cons_of_mem a hspec.1, ?_⟩
        intro q hq
        rcases List.mem_cons.mp hq with hqa | hqt
        · rw [hqa]
          exact le_of_not_le hle
        · exact hspec.2 q hqt

/-- C6: when _maybe_create_next_round_after_answer creates a round, it creates
round_number + 1 for the circular next player (smallest order strictly above
the played order, wrapping to the smallest order of the game), only because no
round existed for that (player, round_number) pair, and invoking it a second
time on the resulting state is a no-op that creates nothing. -/
theorem c6_advance_turn_idempotent (db : DB) (gid rid : Nat) (db1 : DB)
    (created : Round)
    (h : maybe_create_next_round_after_answer db gid rid = (db1, some created)) :
    ∃ ctx np,
      get_round_context db rid = some ctx ∧ ctx.game_id = gid ∧
      get_next_player_in_game db gid ctx.player_order = some np ∧
      created = { id := db.next_round_id, player_id := np.id,
                  round_number := ctx.round_number + 1 } ∧
      exists_for_player_round_number db np.id (ctx.round_number + 1) = false ∧
      db1 = { db with rounds := db.rounds ++ [created],
                      next_round_id := db.next_round_id + 1 } ∧
      np ∈ db.players ∧ np.game_id = gid ∧
      ((ctx.player_order < np.order ∧ ∀ q ∈ db.players, q.game_id = gid →
          ctx.player_order < q.order → np.order ≤ q.order) ∨
        ((∀ q ∈ db.players, q.game_id = gid → q.order ≤ ctx.player_order) ∧
          ∀ q ∈ db.players, q.game_id = gid → np.order ≤ q.order)) ∧
      maybe_create_next_round_after_answer db1 gid rid = (db1, none) := by
  cases hctx : get_round_context db rid with
  | none =>
    simp only [maybe_create_next_round_after_answer, hctx] at h
    exact absurd (congrArg Prod.snd h) (by simp)
  | some ctx =>
    simp only [maybe_create_next_round_after_answer, hctx] at h
    by_cases hgid : (ctx.game_id != gid) = true
    · rw [if_pos hgid] at h
      exact absurd (congrArg Prod.snd h) (by simp)
    · rw [if_neg hgid] at h
      cases hnp : get_next_player_in_game db gid ctx.player_order with
      | none =>
        simp only [hnp] at h
        exact absurd (congrArg Prod.snd h) (by simp)
      | some np =>
        simp only [hnp] at h
        by_cases hex : exists_for_player_round_number db np.id
            (ctx.round_number + 1) = true
        · rw [if_pos hex] at h
          exact absurd (congrArg Prod.snd h) (by simp)
        · rw [if_neg hex] at h
          rw [Prod.mk.injEq] at h
          have hdb1 := h.1
          have hcr : ({ id := db.next_round_id, player_id := np.id,
                        round_number := ctx.round_number + 1 } : Round) = created :=
            Option.some_injective _ h.2
          have hgid2 : ctx.game_id = gid := by
            by_contra hne
            exact hgid (by simp [hne])
          have hexf : exists_for_player_round_number db np.id
              (ctx.round_number + 1) = false := eq_false_of_ne_true hex
          have hdb1e :
              db1 = { db with rounds := db.rounds ++ [created], next_round_id := db.next_round_id + 1 } := by
            rw [← hdb1, ← hcr]
          -- the circular next-player property
          have hnpspec : np ∈ db.players ∧ np.game_id = gid ∧
              ((ctx.player_order < np.order ∧ ∀ q ∈ db.players, q.game_id = gid →
                  ctx.player_order < q.order → np.order ≤ q.order) ∨
                ((∀ q ∈ db.players, q.game_id = gid →
                    q.order ≤ ctx.player_order) ∧
                  ∀ q ∈ db.players, q.game_id = gid → np.order ≤ q.order)) := by
            unfold get_next_player_in_game at hnp
            cases hA : min_by_order (db.players.filter (fun p =>
                p.game_id == gid && decide (ctx.player_order < p.order))) with
            | some p1 =>
              rw [hA] at hnp
              have hp1 : p1 = np := Option.some_injective _ hnp
              subst hp1
              have hspec := min_by_order_spec _ _ hA
              have hmem := List.mem_filter.mp hspec.1
              have hcond := hmem.2
              rw [Bool.and_eq_true] at hcond
              refine ⟨hmem.1, by simpa using hcond.1, Or.inl ⟨by simpa using hcond.2, ?_⟩⟩
              intro q hq hqg hqo
              exact hspec.2 q (List.mem_filter.mpr ⟨hq, by simp [hqg, hqo]⟩)
            | none =>
              rw [hA] at hnp
              have hempty := min_by_order_eq_none _ hA
              have habove : ∀ q ∈ db.players, q.game_id = gid →
                  q.order ≤ ctx.player_order := by
                intro q hq hqg
                by_contra hgt
                have hqf : q ∈ db.players.filter (fun p =>
                    p.game_id == gid && decide (ctx.player_order < p.order)) :=
                  List.mem_filter.mpr ⟨hq, by simp [hqg]; omega⟩
                rw [hempty] at hqf
                cases hqf
              have hspec := min_by_order_spec _ _ hnp
              have hmem := List.mem_filter.mp hspec.1
              refine ⟨hmem.1, by simpa using hmem.2, Or.inr ⟨habove, ?_⟩⟩
              intro q hq hqg
              exact hspec.2 q (List.mem_filter.mpr ⟨hq, by simp [hqg]⟩)
          -- second invocation is a no-op
          have hplayers : db1.players = db.players := by rw [hdb1e]
          have hrounds : db1.rounds = db.rounds ++ [created] := by rw [hdb1e]
          -- the round context is unchanged in db1
          cases hr0 : db.rounds.find? (fun r => r.id == rid) with
          | none =>
            exfalso
            unfold get_round_context at hctx
            simp only [hr0] at hctx
            exact Option.noConfusion hctx
          | some r0 =>
            have hctxu := hctx
            unfold get_round_context at hctxu
            simp only [hr0] at hctxu
            have hctx1 : get_round_context db1 rid = some ctx := by
              unfold get_round_context
              rw [hrounds, hplayers, List.find?_append, hr0]
              exact hctxu
            have hex1 : exists_for_player_round_number db1 np.id
                (ctx.round_number + 1) = true := by
              unfold exists_for_player_round_number
              rw [hrounds, List.any_append]
              have hone : ([created].any (fun r => r.player_id == np.id &&
                  r.round_number == ctx.round_number + 1)) = true := by
                rw [← hcr]
                simp
              rw [hone]
              simp
            have hsecond : maybe_create_next_round_after_answer db1 gid rid =
                (db1, none) := by
              simp only [maybe_create_next_round_after_answer, hctx1]
              rw [if_neg hgid]
              have hnp1 : get_next_player_in_game db1 gid ctx.player_order =
                  some np := by
                unfold get_next_player_in_game at hnp ⊢
                rw [hplayers]
                exact hnp
              simp only [hnp1, hex1, eq_self_iff_true, if_true]
            exact ⟨ctx, np, rfl, hgid2, hnp, hcr.symm, hexf, hdb1e,
              hnpspec.1, hnpspec.2.1, hnpspec.2.2, hsecond⟩

/-- C6 witness: answering cell 1 on round 1 of the sample 3-player game makes
the advance create round 2 for the player of order 2, and a second advance on
the same resolved round is a no-op. -/
theorem c6_advance_turn_idempotent_witness :
    ∃ db1 created,
      maybe_create_next_round_after_answer (sample_2x2_db 1) 1 1 =
        (db1, some created) ∧
      created.player_id = 2 ∧ created.round_number = 2 ∧
      maybe_create_next_round_after_answer db1 1 1 = (db1, none) := by
  refine ⟨(maybe_create_next_round_after_answer (sample_2x2_db 1) 1 1).1,
    { id := 2, player_id := 2, round_number := 2 }, by decide, rfl, rfl, ?_⟩
  have h := c6_advance_turn_idempotent (sample_2x2_db 1) 1 1
    (maybe_create_next_round_after_answer (sample_2x2_db 1) 1 1).1
    { id := 2, player_id := 2, round_number := 2 } (by decide)
  obtain ⟨ctx, np, hres⟩ := h
  exact hres.2.2.2.2.2.2.2.2.2

/-!
C5 and C9 machinery: structural shape of each operation on success.
-/

/-- The pawn phase writes only player pawn positions: every other table and
allocator is untouched. -/
lemma answer_pawn_phase_shape (db : DB) (game : Game) (ctx : RoundCtx)
    (grid : Grid) (db2 : DB) (h : answer_pawn_phase db game ctx grid = .ok db2) :
    db2.grids = db.grids ∧ db2.rounds = db.rounds ∧ db2.games = db.games ∧
    db2.jokers_used = db.jokers_used ∧ db2.jokers_in_game = db.jokers_in_game ∧
    db2.questions = db.questions ∧ db2.theme_ids = db.theme_ids ∧
    db2.next_round_id = db.next_round_id ∧ db2.next_usage_id = db.next_usage_id := by
  unfold answer_pawn_phase at h
  by_cases hwp : (!game.with_pawns) = true
  · rw [if_pos hwp] at h
    have hdb := Except.ok.inj h
    rw [← hdb]
    exact ⟨rfl, rfl, rfl, rfl, rfl, rfl, rfl, rfl, rfl⟩
  · rw [if_neg hwp] at h
    cases hpf : db.players.find? (fun p => p.id == ctx.player_id) with
    | none =>
      simp only [hpf] at h
      exact Except.noConfusion h
    | some player =>
      simp only [hpf] at h
      cases hv : validate_pawn_move db game player grid.row grid.column
          (db.grids.filter (fun c => c.game_id == game.id)) with
      | error e =>
        simp only [hv] at h
        exact Except.noConfusion h
      | ok u =>
        simp only [hv] at h
        have hdb := Except.ok.inj h
        rw [← hdb]
        exact ⟨rfl, rfl, rfl, rfl, rfl, rfl, rfl, rfl, rfl⟩

/-- _maybe_create_next_round_after_answer writes only the rounds table and the
round allocator. -/
lemma maybe_create_shape (db : DB) (gid rid : Nat) (db2 : DB) (onr : Option Round)
    (h : maybe_create_next_round_after_answer db gid rid = (db2, onr)) :
    db2.grids = db.grids ∧ db2.players = db.players ∧ db2.games = db.games ∧
    db2.jokers_used = db.jokers_used := by
  unfold maybe_create_next_round_after_answer at h
  cases hctx : get_round_context db rid with
  | none =>
    simp only [hctx] at h
    rw [Prod.mk.injEq] at h
    rw [← h.1]
    exact ⟨rfl, rfl, rfl, rfl⟩
  | some ctx =>
    simp only [hctx] at h
    by_cases hgid : (ctx.game_id != gid) = true
    · rw [if_pos hgid, Prod.mk.injEq] at h
      rw [← h.1]
      exact ⟨rfl, rfl, rfl, rfl⟩
    · rw [if_neg hgid] at h
      cases hnp : get_next_player_in_game db gid ctx.player_order with
      | none =>
        simp only [hnp] at h
        rw [Prod.mk.injEq] at h
        rw [← h.1]
        exact ⟨rfl, rfl, rfl, rfl⟩
      | some np =>
        simp only [hnp] at h
        by_cases hex : exists_for_player_round_number db np.id
            (ctx.round_number + 1) = true
        · rw [if_pos hex, Prod.mk.injEq] at h
          rw [← h.1]
          exact ⟨rfl, rfl, rfl, rfl⟩
        · rw [if_neg hex, Prod.mk.injEq] at h
          rw [← h.1]
          exact ⟨rfl, rfl, rfl, rfl⟩

/-- A successful use_joker appends exactly one usage row and bumps the usage
allocator; nothing else changes (single-commit write). -/
lemma use_joker_ok_shape (db : DB) (url : String) (p : JokerUseIn) (uid : Nat)
    (adm : Bool) (db2 : DB) (u : JokerUsedInGame)
    (h : use_joker db url p uid adm = .ok (db2, u)) :
    db2 = { db with jokers_used := db.jokers_used ++ [u],
                    next_usage_id := db.next_usage_id + 1 } ∧
    u = { id := db.next_usage_id, joker_in_game_id := p.joker_in_game_id,
          round_id := p.round_id, target_player_id := p.target_player_id,
          target_grid_id := p.target_grid_id } := by
  unfold use_joker at h
  cases hg : get_by_url db url with
  | none =>
    simp only [hg] at h
    exact Except.noConfusion h
  | some game =>
    simp only [hg] at h
    by_cases hauth : (game.owner_id != uid && !adm) = true
    · rw [if_pos hauth] at h
      exact Except.noConfusion h
    · rw [if_neg hauth] at h
      cases hjig : db.jokers_in_game.find? (fun j => j.id == p.joker_in_game_id) with
      | none =>
        simp only [hjig] at h
        exact Except.noConfusion h
      | some jig =>
        simp only [hjig] at h
        by_cases hjg : (jig.game_id != game.id) = true
        · rw [if_pos hjg] at h
          exact Except.noConfusion h
        · rw [if_neg hjg] at h
          cases hctx : get_round_context db p.round_id with
          | none =>
            simp only [hctx] at h
            exact Except.noConfusion h
          | some ctx =>
            simp only [hctx] at h
            by_cases hcg : (ctx.game_id != game.id) = true
            · rw [if_pos hcg] at h
              exact Except.noConfusion h
            · rw [if_neg hcg] at h
              by_cases hused : (list_used_joker_in_game_ids_for_player_before_round
                  db game.id ctx.player_id p.round_id).contains p.joker_in_game_id = true
              · rw [if_pos hused] at h
                exact Except.noConfusion h
              · rw [if_neg hused] at h
                have hpair := Except.ok.inj h
                rw [Prod.mk.injEq] at hpair
                have hu := hpair.2.symm
                refine ⟨?_, hu⟩
                rw [hu]
                exact hpair.1.symm

/-- A successful state query writes only the finished flag of the games
table. -/
lemma get_game_state_ok_shape (db : DB) (url : String) (uid : Nat) (adm : Bool)
    (out : GameStateOut) (h : get_game_state db url uid adm = .ok out) :
    out.db.grids = db.grids ∧ out.db.players = db.players ∧
    out.db.rounds = db.rounds ∧ out.db.jokers_used = db.jokers_used := by
  unfold get_game_state at h
  cases hg : get_by_url db url with
  | none =>
    simp only [hg] at h
    exact Except.noConfusion h
  | some game =>
    simp only [hg] at h
    split at h
    · exact Except.noConfusion h
    · split at h
      · exact Except.noConfusion h
      · split at h
        · have hout := Except.ok.inj h
          rw [← hout]
          exact ⟨rfl, rfl, rfl, rfl⟩
        · have hout := Except.ok.inj h
          rw [← hout]
          exact ⟨rfl, rfl, rfl, rfl⟩

/-- Shape of a successful answer_question: the found cell was unanswered, the
first commit binds exactly that cell (after the pawn phase), and the optional
second commit appends exactly the next round. -/
lemma answer_question_ok_shape (db : DB) (url : String) (p : AnswerCreateIn)
    (uid : Nat) (adm : Bool) (auto : Bool) (res : AnswerResult)
    (h : answer_question db url p uid adm auto = .ok res) :
    ∃ game grid round_ctx db_pawn db1,
      get_by_url db url = some game ∧
      db.grids.find? (fun c => c.id == p.grid_id) = some grid ∧
      grid.round_id = none ∧
      get_round_context db p.round_id = some round_ctx ∧
      answer_pawn_phase db game round_ctx grid = .ok db_pawn ∧
      res.updated = { grid with round_id := some p.round_id,
                                correct_answer := p.correct_answer,
                                skip_answer := p.skip_answer } ∧
      db1 = bind_cell_update db_pawn grid res.updated ∧
      ((res.commits = [db1] ∧ res.db = db1 ∧ res.next_round = none) ∨
        (∃ r db2, auto = true ∧
          maybe_create_next_round_after_answer db1 game.id p.round_id =
            (db2, some r) ∧
          res.commits = [db1, db2] ∧ res.db = db2 ∧ res.next_round = some r)) := by
  unfold answer_question at h
  cases hg : get_by_url db url with
  | none =>
    simp only [hg] at h
    exact Except.noConfusion h
  | some game =>
    simp only [hg] at h
    by_cases hauth : (game.owner_id != uid && !adm) = true
    · rw [if_pos hauth] at h
      exact Except.noConfusion h
    · rw [if_neg hauth] at h
      cases hgr : db.grids.find? (fun c => c.id == p.grid_id) with
      | none =>
        simp only [hgr] at h
        exact Except.noConfusion h
      | some grid =>
        simp only [hgr] at h
        by_cases hgg : (grid.game_id != game.id) = true
        · rw [if_pos hgg] at h
          exact Except.noConfusion h
        · rw [if_neg hgg] at h
          cases hrid : grid.round_id with
          | some r0 =>
            simp only [hrid] at h
            exact Except.noConfusion h
          | none =>
            simp only [hrid] at h
            cases hctx : get_round_context db p.round_id with
            | none =>
              simp only [hctx] at h
              exact Except.noConfusion h
            | some round_ctx =>
              simp only [hctx] at h
              by_cases hcg : (round_ctx.game_id != game.id) = true
              · rw [if_pos hcg] at h
                exact Except.noConfusion h
              · rw [if_neg hcg] at h
                cases hpw : answer_pawn_phase db game round_ctx grid with
                | error e =>
                  simp only [hpw] at h
                  exact Except.noConfusion h
                | ok db_pawn =>
                  simp only [hpw] at h
                  refine ⟨game, grid, round_ctx, db_pawn,
                    bind_cell_update db_pawn grid
                      { grid with round_id := some p.round_id,
                                  correct_answer := p.correct_answer,
                                  skip_answer := p.skip_answer },
                    rfl, rfl, hrid, rfl, hpw, ?_⟩
                  by_cases hauto : auto = true
                  · rw [if_pos hauto] at h
                    cases hmc : maybe_create_next_round_after_answer
                        (bind_cell_update db_pawn grid
                          { grid with round_id := some p.round_id,
                                      correct_answer := p.correct_answer,
                                      skip_answer := p.skip_answer })
                        game.id p.round_id with
                    | mk db2 onr =>
                      cases onr with
                      | some r =>
                        rw [hmc] at h
                        have hres := Except.ok.inj h
                        rw [← hres]
                        exact ⟨rfl, rfl, Or.inr ⟨r, db2, hauto, rfl, rfl, rfl, rfl⟩⟩
                      | none =>
                        rw [hmc] at h
                        have hres := Except.ok.inj h
                        rw [← hres]
                        exact ⟨rfl, rfl, Or.inl ⟨rfl, rfl, rfl⟩⟩
                  · rw [if_neg hauto] at h
                    have hres := Except.ok.inj h
                    rw [← hres]
                    exact ⟨rfl, rfl, Or.inl ⟨rfl, rfl, rfl⟩⟩

/-- When _maybe_create_next_round_after_answer creates a round, the new state
is exactly the old one with that round appended. -/
lemma maybe_create_some_shape (db : DB) (gid rid : Nat) (db2 : DB) (r : Round)
    (h : maybe_create_next_round_after_answer db gid rid = (db2, some r)) :
    db2 = { db with rounds := db.rounds ++ [r],
                    next_round_id := db.next_round_id + 1 } := by
  unfold maybe_create_next_round_after_answer at h
  cases hctx : get_round_context db rid with
  | none =>
    simp only [hctx] at h
    exact absurd (congrArg Prod.snd h) (by simp)
  | some ctx =>
    simp only [hctx] at h
    by_cases hgid : (ctx.game_id != gid) = true
    · rw [if_pos hgid] at h
      exact absurd (congrArg Prod.snd h) (by simp)
    · rw [if_neg hgid] at h
      cases hnp : get_next_player_in_game db gid ctx.player_order with
      | none =>
        simp only [hnp] at h
        exact absurd (congrArg Prod.snd h) (by simp)
      | some np =>
        simp only [hnp] at h
        by_cases hex : exists_for_player_round_number db np.id
            (ctx.round_number + 1) = true
        · rw [if_pos hex] at h
          exact absurd (congrArg Prod.snd h) (by simp)
        · rw [if_neg hex] at h
          rw [Prod.mk.injEq] at h
          rw [← h.1, ← Option.some_injective _ h.2]

/-!
C4: board generation is deterministic in the seed.
-/

/-- C4: two runs of create_game with the same seed, dimensions, ordered player
list, per-player question count, general theme ids and question pools produce
the same board (grid layout, shuffled player order and first-round player)
whenever both succeed, whatever the slug oracle and existing urls were. -/
theorem c4_create_game_deterministic (o1 o2 : Nat → String)
    (ex1 ex2 : List String) (payload : GameCreateIn)
    (load_question_ids : Nat → List Nat) (g1 g2 : CreatedGameFull)
    (h1 : create_game o1 ex1 payload load_question_ids = .ok g1)
    (h2 : create_game o2 ex2 payload load_question_ids = .ok g2) :
    g1.board = g2.board := by
  unfold create_game at h1 h2
  cases hu1 : generate_unique_game_url o1 ex1 with
  | error e =>
    simp only [hu1] at h1
    exact Except.noConfusion h1
  | ok u1 =>
    simp only [hu1] at h1
    cases hu2 : generate_unique_game_url o2 ex2 with
    | error e =>
      simp only [hu2] at h2
      exact Except.noConfusion h2
    | ok u2 =>
      simp only [hu2] at h2
      cases hb : build_board payload load_question_ids with
      | error e =>
        simp only [hb] at h1
        exact Except.noConfusion h1
      | ok b =>
        simp only [hb] at h1 h2
        rw [← Except.ok.inj h1, ← Except.ok.inj h2]

/-- C4 witness: the sample payload built with two different url oracles (and
different taken-url sets) yields identical boards. -/
theorem c4_create_game_deterministic_witness :
    ∃ g1 g2,
      create_game (fun _ => "u") [] sample_create_in sample_load = .ok g1 ∧
      create_game (fun _ => "v") ["w"] sample_create_in sample_load = .ok g2 ∧
      g1.board = g2.board := by
  cases h1 : create_game (fun _ => "u") [] sample_create_in sample_load with
  | error e =>
    have hfull : (create_game (fun _ => "u") [] sample_create_in
        sample_load).toOption.isSome = true := by decide
    rw [h1] at hfull
    cases hfull
  | ok g1 =>
    cases h2 : create_game (fun _ => "v") ["w"] sample_create_in sample_load with
    | error e =>
      have hfull : (create_game (fun _ => "v") ["w"] sample_create_in
          sample_load).toOption.isSome = true := by decide
      rw [h2] at hfull
      cases hfull
    | ok g2 =>
      exact ⟨g1, g2, rfl, rfl,
        c4_create_game_deterministic (fun _ => "u") (fun _ => "v") [] ["w"]
          sample_create_in sample_load g1 g2 h1 h2⟩

/-!
C5: write-once grid cells.
-/

/-- C5: answering a cell whose round_id is already set raises Conflict, and no
engine operation (answer, joker use, state query, turn advance) ever removes
or changes a resolved cell: the cell row, with its round_id, correct_answer
and skip_answer, is still present afterwards. -/
theorem c5_grid_write_once :
    (∀ (db : DB) (url : String) (p : AnswerCreateIn) (uid : Nat)
      (adm auto : Bool) (game : Game) (c : Grid) (r : Nat),
      get_by_url db url = some game →
      (game.owner_id != uid && !adm) = false →
      db.grids.find? (fun c0 => c0.id == p.grid_id) = some c →
      c.game_id = game.id →
      c.round_id = some r →
      answer_question db url p uid adm auto =
        .error (.conflict "GRID_ALREADY_ANSWERED")) ∧
    (∀ (db : DB) (op : EngineOp) (c : Grid) (r : Nat),
      (db.grids.map (fun c0 => c0.id)).Nodup →
      c ∈ db.grids → c.round_id = some r →
      c ∈ (apply_op db op).grids) := by
  constructor
  · intro db url p uid adm auto game c r hg hauth hfind hcg hr
    unfold answer_question
    simp only [hg]
    rw [if_neg (fun hh => by rw [hh] at hauth; exact Bool.noConfusion hauth)]
    simp only [hfind]
    have hbne : (c.game_id != game.id) = false := by simp [hcg]
    rw [if_neg (fun hh => by rw [hh] at hbne; exact Bool.noConfusion hbne)]
    simp only [hr]
  · intro db op c r hnd hmem hr
    cases op with
    | advance gid rid =>
      have hshape := maybe_create_shape db gid rid
        (maybe_create_next_round_after_answer db gid rid).1
        (maybe_create_next_round_after_answer db gid rid).2 rfl
      show c ∈ (maybe_create_next_round_after_answer db gid rid).1.grids
      rw [hshape.1]
      exact hmem
    | joker url p uid adm =>
      simp only [apply_op]
      cases hj : use_joker db url p uid adm with
      | error e => exact hmem
      | ok pr =>
        obtain ⟨db2, u⟩ := pr
        have hshape := use_joker_ok_shape db url p uid adm db2 u hj
        show c ∈ db2.grids
        rw [hshape.1]
        exact hmem
    | state url uid adm =>
      simp only [apply_op]
      cases hs : get_game_state db url uid adm with
      | error e => exact hmem
      | ok out =>
        have hshape := get_game_state_ok_shape db url uid adm out hs
        show c ∈ out.db.grids
        rw [hshape.1]
        exact hmem
    | answer url p uid adm auto =>
      simp only [apply_op]
      cases ha : answer_question db url p uid adm auto with
      | error e => exact hmem
      | ok res =>
        obtain ⟨game, grid, rctx, db_pawn, db1, hgq, hfind, hunres, hctx, hpw,
          hupd, hdb1, hrest⟩ := answer_question_ok_shape db url p uid adm auto res ha
        have hpshape := answer_pawn_phase_shape db game rctx grid db_pawn hpw
        have hgridmem : grid ∈ db.grids := List.mem_of_find?_eq_some hfind
        have hcid : (c.id == grid.id) = false := by
          simp only [beq_eq_false_iff_ne, ne_eq]
          intro hid
          have hceq : c = grid := List.inj_on_of_nodup_map hnd hmem hgridmem hid
          rw [hceq, hunres] at hr
          exact Option.noConfusion hr
        have hmem1 : c ∈ db1.grids := by
          rw [hdb1]
          show c ∈ db_pawn.grids.map (fun c0 =>
            if c0.id == grid.id then res.updated else c0)
          rw [hpshape.1]
          have hmm := List.mem_map_of_mem
            (fun c0 => if c0.id == grid.id then res.updated else c0) hmem
          simpa [hcid] using hmm
        show c ∈ res.db.grids
        rcases hrest with ⟨hc1, hdbeq, hn1⟩ | ⟨r2, db2, ha2, hmc, hc2, hdbeq, hn2⟩
        · rw [hdbeq]
          exact hmem1
        · rw [hdbeq]
          have hsh2 := maybe_create_shape db1 game.id p.round_id db2 (some r2) hmc
          rw [hsh2.1]
          exact hmem1

/-- C5 witness: with the first cell already resolved, re-answering it raises
Conflict, and the resolved cell survives a turn-advance operation. -/
theorem c5_grid_write_once_witness :
    answer_question (sample_2x2_db 1) "g-x" sample_answer_payload 1 false true =
      .error (.conflict "GRID_ALREADY_ANSWERED") ∧
    ({ id := 1, game_id := 1, round_id := some 1, question_id := 101,
       correct_answer := false, skip_answer := false, row := 0,
       column := 0 } : Grid) ∈ (apply_op (sample_2x2_db 1) (.advance 1 1)).grids := by
  constructor
  · exact c5_grid_write_once.1 (sample_2x2_db 1) "g-x" sample_answer_payload 1
      false true sample_game
      { id := 1, game_id := 1, round_id := some 1, question_id := 101,
        correct_answer := false, skip_answer := false, row := 0, column := 0 }
      1 (by decide) (by decide) (by decide) (by decide) (by decide)
  · exact c5_grid_write_once.2 (sample_2x2_db 1) (.advance 1 1)
      { id := 1, game_id := 1, round_id := some 1, question_id := 101,
        correct_answer := false, skip_answer := false, row := 0, column := 0 }
      1 (by decide) (by decide) (by decide)

/-!
C3: the joker usage gate. The claimed invariant (at most one JokerUsage row
per player and instance) fails on the code: the gate only blocks instances
used in rounds with a strictly smaller round id, so using the same instance
twice within the same round inserts two rows.
-/

/-- C3 counterexample: from the freshly created sample game (a reachable
state), the same joker instance (joker_in_game id 5) is accepted twice on the
same round by the same player, leaving two JokerUsage rows for that (player,
instance) pair — refuting the at-most-one-usage-per-player invariant. -/
theorem c3_counterexample :
    Reachable c3_state_two_uses ∧
    (c3_state_two_uses.jokers_used.filter (fun u =>
      u.joker_in_game_id == 5 &&
      (match get_round_context c3_state_two_uses u.round_id with
        | some ctx => ctx.player_id == 1
        | none => false))).length = 2 := by
  constructor
  · exact Reachable.step _ _ (Reachable.step _ _ (Reachable.init _ (by decide)))
  · decide

/-- C3 amended: after the game, joker-instance and round lookups succeed,
use_joker raises Conflict exactly when the requested instance is among those
already used by the acting player (the player of the round) in a round with a
strictly smaller round id, and otherwise appends exactly one new JokerUsage
row. Nothing blocks a second usage of the same instance within the same round. -/
theorem c3_joker_gate_amended (db : DB) (url : String) (payload : JokerUseIn)
    (uid : Nat) (adm : Bool) (game : Game) (jig : JokerInGame) (ctx : RoundCtx)
    (hg : get_by_url db url = some game)
    (hauth : (game.owner_id != uid && !adm) = false)
    (hjig : db.jokers_in_game.find? (fun j => j.id == payload.joker_in_game_id) =
      some jig)
    (hjgame : jig.game_id = game.id)
    (hctx : get_round_context db payload.round_id = some ctx)
    (hcgame : ctx.game_id = game.id) :
    (payload.joker_in_game_id ∈ list_used_joker_in_game_ids_for_player_before_round
        db game.id ctx.player_id payload.round_id →
      use_joker db url payload uid adm =
        .error (.conflict "Joker already used by this player")) ∧
    (payload.joker_in_game_id ∉ list_used_joker_in_game_ids_for_player_before_round
        db game.id ctx.player_id payload.round_id →
      use_joker db url payload uid adm =
        .ok ({ db with
               jokers_used := db.jokers_used ++
                 [{ id := db.next_usage_id,
                    joker_in_game_id := payload.joker_in_game_id,
                    round_id := payload.round_id,
                    target_player_id := payload.target_player_id,
                    target_grid_id := payload.target_grid_id }],
               next_usage_id := db.next_usage_id + 1 },
             { id := db.next_usage_id,
               joker_in_game_id := payload.joker_in_game_id,
               round_id := payload.round_id,
               target_player_id := payload.target_player_id,
               target_grid_id := payload.target_grid_id })) := by
  have hauth2 : ¬(game.owner_id != uid && !adm) = true :=
    fun hh => by rw [hh] at hauth; exact Bool.noConfusion hauth
  have hjg2 : (jig.game_id != game.id) = false := by simp [hjgame]
  have hcg2 : (ctx.game_id != game.id) = false := by simp [hcgame]
  constructor
  · intro hmem
    unfold use_joker
    simp only [hg]
    rw [if_neg hauth2]
    simp only [hjig]
    rw [if_neg (fun hh => by rw [hh] at hjg2; exact Bool.noConfusion hjg2)]
    simp only [hctx]
    rw [if_neg (fun hh => by rw [hh] at hcg2; exact Bool.noConfusion hcg2)]
    have hc : (list_used_joker_in_game_ids_for_player_before_round db game.id
        ctx.player_id payload.round_id).contains payload.joker_in_game_id = true :=
      List.elem_iff.mpr hmem
    rw [if_pos hc]
  · intro hnmem
    unfold use_joker
    simp only [hg]
    rw [if_neg hauth2]
    simp only [hjig]
    rw [if_neg (fun hh => by rw [hh] at hjg2; exact Bool.noConfusion hjg2)]
    simp only [hctx]
    rw [if_neg (fun hh => by rw [hh] at hcg2; exact Bool.noConfusion hcg2)]
    have hc : (list_used_joker_in_game_ids_for_player_before_round db game.id
        ctx.player_id payload.round_id).contains payload.joker_in_game_id = false := by
      cases hcc : (list_used_joker_in_game_ids_for_player_before_round db game.id
          ctx.player_id payload.round_id).contains payload.joker_in_game_id
      · rfl
      · exact absurd (List.elem_iff.mp hcc) hnmem
    rw [if_neg (fun hh => by rw [hh] at hc; exact Bool.noConfusion hc)]

/-- C3 witness: the gate accepts the sample joker for player 1 on round 1 of
the fresh sample game and appends exactly one usage row. -/
theorem c3_joker_gate_amended_witness :
    use_joker (sample_2x2_db 0) "g-x" sample_joker_payload 1 false =
      .ok ({ sample_2x2_db 0 with
             jokers_used := (sample_2x2_db 0).jokers_used ++
               [{ id := (sample_2x2_db 0).next_usage_id,
                  joker_in_game_id := 5, round_id := 1,
                  target_player_id := none, target_grid_id := none }],
             next_usage_id := (sample_2x2_db 0).next_usage_id + 1 },
           { id := (sample_2x2_db 0).next_usage_id, joker_in_game_id := 5,
             round_id := 1, target_player_id := none,
             target_grid_id := none }) := by
  have h := (c3_joker_gate_amended (sample_2x2_db 0) "g-x" sample_joker_payload
    1 false sample_game { id := 5, joker_id := 7, game_id := 1 }
    { round_id := 1, round_number := 1, player_id := 1, player_order := 1,
      player_theme_id := 10, game_id := 1 }
    (by decide) (by decide) (by decide) (by decide) (by decide) (by decide)).2
    (by decide)
  exact h

/-!
C9: commit granularity of the mutating operations.
-/

/-- C9 counterexample: on the fresh sample game, one successful
answer_question produces two separate commits; the first committed state
already has the cell bound to the round (one resolved cell) but no round for
(player 2, round_number 2) yet, which only the second commit adds. The pair
below records, for each committed state in order, the count of resolved cells
and the count of rounds for (player 2, number 2). -/
theorem c9_counterexample :
    (answer_question (sample_2x2_db 0) "g-x" sample_answer_payload 1 false
        true).map
      (fun res => res.commits.map (fun d =>
        ((d.grids.filter (fun c => !c.round_id.isNone)).length,
         (d.rounds.filter (fun r =>
           r.player_id == 2 && r.round_number == 2)).length))) =
      .ok [(1, 0), (1, 1)] := by
  rfl

/-- C9 amended: create_game commits once at the end (errors leave nothing);
use_joker performs exactly one write batch (one appended usage row);
answer_question is not one atomic unit but two successive commits: the first
binds the cell (rounds unchanged), and the second, when the next round is
created, appends exactly that round. -/
theorem c9_commit_granularity_amended :
    (∀ (db : DB) (url : String) (p : AnswerCreateIn) (uid : Nat) (adm : Bool)
      (res : AnswerResult),
      answer_question db url p uid adm true = .ok res →
      ∃ db1, res.commits.head? = some db1 ∧ db1.rounds = db.rounds ∧
        (∃ g, db.grids.find? (fun c0 => c0.id == p.grid_id) = some g ∧
          g.round_id = none ∧
          db1.grids = db.grids.map (fun c0 =>
            if c0.id == g.id then res.updated else c0)) ∧
        res.updated.round_id = some p.round_id ∧
        ((res.commits = [db1] ∧ res.db = db1) ∨
          (res.commits = [db1, res.db] ∧
            ∃ r, res.next_round = some r ∧
              res.db.rounds = db1.rounds ++ [r]))) ∧
    (∀ (db : DB) (url : String) (p : JokerUseIn) (uid : Nat) (adm : Bool)
      (db2 : DB) (u : JokerUsedInGame),
      use_joker db url p uid adm = .ok (db2, u) →
      db2 = { db with jokers_used := db.jokers_used ++ [u],
                      next_usage_id := db.next_usage_id + 1 }) := by
  constructor
  · intro db url p uid adm res h
    obtain ⟨game, grid, rctx, db_pawn, db1, hgq, hfind, hunres, hctx, hpw,
      hupd, hdb1, hrest⟩ := answer_question_ok_shape db url p uid adm true res h
    have hpshape := answer_pawn_phase_shape db game rctx grid db_pawn hpw
    refine ⟨db1, ?_, ?_, ⟨grid, hfind, hunres, ?_⟩, ?_, ?_⟩
    · rcases hrest with ⟨hc, _, _⟩ | ⟨r2, db2, _, _, hc, _, _⟩
      · rw [hc]; rfl
      · rw [hc]; rfl
    · rw [hdb1]
      show db_pawn.rounds = db.rounds
      exact hpshape.2.1
    · rw [hdb1]
      show db_pawn.grids.map (fun c0 =>
        if c0.id == grid.id then res.updated else c0) = _
      rw [hpshape.1]
    · rw [hupd]
    · rcases hrest with ⟨hc, hdbe, _⟩ | ⟨r2, db2, _, hmc, hc, hdbe, hnr⟩
      · exact Or.inl ⟨hc, hdbe⟩
      · refine Or.inr ⟨by rw [hc, hdbe], r2, hnr, ?_⟩
        have hsome := maybe_create_some_shape db1 game.id p.round_id db2 r2 hmc
        rw [hdbe, hsome]
  · intro db url p uid adm db2 u h
    exact (use_joker_ok_shape db url p uid adm db2 u h).1

/-- C9 amended witness: the concrete successful answer run satisfies the
two-phase commit shape. -/
theorem c9_commit_granularity_amended_witness :
    ∃ res db1,
      answer_question (sample_2x2_db 0) "g-x" sample_answer_payload 1 false
        true = .ok res ∧
      res.commits.head? = some db1 ∧ db1.rounds = (sample_2x2_db 0).rounds := by
  cases h : answer_question (sample_2x2_db 0) "g-x" sample_answer_payload 1
      false true with
  | error e =>
    have hfull : (answer_question (sample_2x2_db 0) "g-x"
        sample_answer_payload 1 false true).toOption.isSome = true := by decide
    rw [h] at hfull
    cases hfull
  | ok res =>
    obtain ⟨db1, h1, h2, _⟩ := c9_commit_granularity_amended.1
      (sample_2x2_db 0) "g-x" sample_answer_payload 1 false res h
    exact ⟨res, db1, rfl, h1, h2⟩

/-!
C8: the Gamble joker applies at the resolution of the targeted cell.
-/

/-- Inserting a usage with a different joker name does not change a
round-joker filter. -/
lemma round_jokers_drop_other_name (u : UsageRow) (rs1 rs2 : List UsageRow)
    (rid apid : Nat) (name : String) (hne : u.joker_name ≠ name) :
    round_jokers (rs1 ++ u :: rs2) rid apid name =
      round_jokers (rs1 ++ rs2) rid apid name := by
  unfold round_jokers
  apply filter_middle_false
  simp [hne]

/-- The base, x2, All-In and Appel blocks only read the round-joker filters of
their names, so inserting a Gamble usage anywhere leaves them unchanged. -/
lemma gamble_components_eq (players_out : List PlayerOut) (u : UsageRow)
    (rs1 rs2 : List UsageRow) (hname : u.joker_name = JOKER_GAMBLE)
    (apid rid pid : Nat) (cell : ScoredCell) :
    base_delta players_out (rs1 ++ u :: rs2) apid cell rid pid =
      base_delta players_out (rs1 ++ rs2) apid cell rid pid ∧
    x2_delta players_out (rs1 ++ u :: rs2) apid cell rid pid =
      x2_delta players_out (rs1 ++ rs2) apid cell rid pid ∧
    all_in_delta players_out (rs1 ++ u :: rs2) apid cell rid pid =
      all_in_delta players_out (rs1 ++ rs2) apid cell rid pid ∧
    appel_delta (rs1 ++ u :: rs2) apid cell rid pid =
      appel_delta (rs1 ++ rs2) apid cell rid pid := by
  have hx2 : round_jokers (rs1 ++ u :: rs2) rid apid JOKER_X2 =
      round_jokers (rs1 ++ rs2) rid apid JOKER_X2 :=
    round_jokers_drop_other_name u rs1 rs2 rid apid JOKER_X2
      (by rw [hname]; decide)
  have hallin : round_jokers (rs1 ++ u :: rs2) rid apid JOKER_ALL_IN =
      round_jokers (rs1 ++ rs2) rid apid JOKER_ALL_IN :=
    round_jokers_drop_other_name u rs1 rs2 rid apid JOKER_ALL_IN
      (by rw [hname]; decide)
  have happel : round_jokers (rs1 ++ u :: rs2) rid apid JOKER_APPEL =
      round_jokers (rs1 ++ rs2) rid apid JOKER_APPEL :=
    round_jokers_drop_other_name u rs1 rs2 rid apid JOKER_APPEL
      (by rw [hname]; decide)
  refine ⟨?_, ?_, ?_, ?_⟩
  · simp only [base_delta, owner_hit, owner_penalty_blocked,
      called_player_ids_for_round, happel]
  · simp only [x2_delta, has_x2, owner_hit, owner_penalty_blocked,
      called_player_ids_for_round, happel, hx2]
  · simp only [all_in_delta, all_in_count, hallin]
  · simp only [appel_delta, appel_targets, happel]

/-- The gamble filter of one replay step, as a single combined filter. -/
lemma cell_gambles_as_filter (l : List UsageRow) (apid : Nat) (cell : ScoredCell) :
    cell_gambles l apid cell = l.filter (fun a =>
      (a.using_player_id != apid) &&
      (a.joker_name == JOKER_GAMBLE &&
        (match a.target_grid_id with
          | some t => t != 0 && t == cell.id
          | none => false))) := by
  unfold cell_gambles gambles_for_grid
  rw [List.filter_filter]

/-- Inserting a usage that either does not gamble on this cell, or whose
gambler is the answering player, leaves the gamble filter of the step
unchanged. -/
lemma cell_gambles_drop (u : UsageRow) (rs1 rs2 : List UsageRow) (apid : Nat)
    (cell : ScoredCell)
    (hdrop : (u.joker_name == JOKER_GAMBLE &&
        (match u.target_grid_id with
          | some t => t != 0 && t == cell.id
          | none => false)) = false ∨
      (u.using_player_id != apid) = false) :
    cell_gambles (rs1 ++ u :: rs2) apid cell =
      cell_gambles (rs1 ++ rs2) apid cell := by
  rw [cell_gambles_as_filter, cell_gambles_as_filter]
  apply filter_middle_false
  rcases hdrop with hq | hw
  · rw [hq, Bool.and_false]
  · rw [hw, Bool.false_and]

/-- C8: a Gamble usage by player C targeting grid cell tg has no effect on the
delta of any replay step other than the resolution of tg (in particular none
at its round of use), has no effect at all when C answers tg, and at the
resolution of tg by another player shifts exactly C's delta by plus the cell
points when correct and minus them when incorrect — leaving the answerer and
everyone else exactly as without the gamble. -/
theorem c8_gamble_applies_at_target_resolution (players_out : List PlayerOut)
    (u : UsageRow) (tg : Nat) (rs1 rs2 : List UsageRow)
    (hname : u.joker_name = JOKER_GAMBLE)
    (htg : u.target_grid_id = some tg) (htg0 : tg ≠ 0) :
    (∀ (cell : ScoredCell) (apid rid pid : Nat), cell.id ≠ tg →
      (score_cell players_out (rs1 ++ u :: rs2) apid cell rid).delta pid =
        (score_cell players_out (rs1 ++ rs2) apid cell rid).delta pid) ∧
    (∀ (cell : ScoredCell) (rid pid : Nat),
      (score_cell players_out (rs1 ++ u :: rs2) u.using_player_id cell
        rid).delta pid =
        (score_cell players_out (rs1 ++ rs2) u.using_player_id cell
          rid).delta pid) ∧
    (∀ (cell : ScoredCell) (apid rid : Nat), cell.id = tg →
      cell.skip_answer = false → u.using_player_id ≠ apid →
      ∀ pid,
        (score_cell players_out (rs1 ++ u :: rs2) apid cell rid).delta pid =
          (score_cell players_out (rs1 ++ rs2) apid cell rid).delta pid +
            (if pid = u.using_player_id then
              (if cell.correct_answer then cell.question_points
                else -cell.question_points) else 0)) := by
  refine ⟨?_, ?_, ?_⟩
  · intro cell apid rid pid hne
    by_cases hskip : cell.skip_answer = true
    · rw [score_cell_skip _ _ _ _ _ hskip, score_cell_skip _ _ _ _ _ hskip]
    · have hskipf : cell.skip_answer = false := eq_false_of_ne_true hskip
      have hcomp := gamble_components_eq players_out u rs1 rs2 hname apid rid pid cell
      have hgam : gamble_delta (rs1 ++ u :: rs2) apid cell pid =
          gamble_delta (rs1 ++ rs2) apid cell pid := by
        unfold gamble_delta
        rw [cell_gambles_drop u rs1 rs2 apid cell (Or.inl ?_)]
        rw [hname, htg]
        have hne2 : (tg == cell.id) = false := by
          simp only [beq_eq_false_iff_ne, ne_eq]
          exact fun he => hne he.symm
        simp [hne2]
      simp only [score_cell, hskipf, Bool.false_eq_true, if_false,
        hcomp.1, hcomp.2.1, hcomp.2.2.1, hcomp.2.2.2, hgam]
  · intro cell rid pid
    by_cases hskip : cell.skip_answer = true
    · rw [score_cell_skip _ _ _ _ _ hskip, score_cell_skip _ _ _ _ _ hskip]
    · have hskipf : cell.skip_answer = false := eq_false_of_ne_true hskip
      have hcomp := gamble_components_eq players_out u rs1 rs2 hname
        u.using_player_id rid pid cell
      have hgam : gamble_delta (rs1 ++ u :: rs2) u.using_player_id cell pid =
          gamble_delta (rs1 ++ rs2) u.using_player_id cell pid := by
        unfold gamble_delta
        rw [cell_gambles_drop u rs1 rs2 u.using_player_id cell (Or.inr (by simp))]
      simp only [score_cell, hskipf, Bool.false_eq_true, if_false,
        hcomp.1, hcomp.2.1, hcomp.2.2.1, hcomp.2.2.2, hgam]
  · intro cell apid rid hid hskipf hgne pid
    have hcomp := gamble_components_eq players_out u rs1 rs2 hname apid rid pid cell
    have hgam : gamble_delta (rs1 ++ u :: rs2) apid cell pid =
        gamble_delta (rs1 ++ rs2) apid cell pid +
          (if pid = u.using_player_id then
            (if cell.correct_answer then cell.question_points
              else -cell.question_points) else 0) := by
      unfold gamble_delta
      rw [cell_gambles_as_filter, cell_gambles_as_filter]
      have hu : ((u.using_player_id != apid) &&
          (u.joker_name == JOKER_GAMBLE &&
            (match u.target_grid_id with
              | some t => t != 0 && t == cell.id
              | none => false))) = true := by
        rw [hname, htg, hid]
        simp [hgne, htg0]
      rw [List.filter_append, List.filter_cons, hu, if_pos rfl]
      by_cases hup : (u.using_player_id == pid) = true
      · have hpe : pid = u.using_player_id := (beq_iff_eq.mp hup).symm
        rw [List.filter_append, List.filter_cons, hup, if_pos rfl]
        simp only [List.filter_append, List.length_append, List.length_cons,
          hpe, if_pos rfl]
        push_cast
        ring
      · have hupf : (u.using_player_id == pid) = false := eq_false_of_ne_true hup
        have hpe : ¬(pid = u.using_player_id) := by
          intro he
          rw [he] at hupf
          simp at hupf
        rw [List.filter_append, List.filter_cons, hupf]
        simp only [Bool.false_eq_true, if_false, List.filter_append,
          List.length_append, hpe]
        ring
    simp only [score_cell, hskipf, Bool.false_eq_true, if_false,
      hcomp.1, hcomp.2.1, hcomp.2.2.1, hcomp.2.2.2, hgam]
    ring

/-- C8 witness: a gamble by player 2 on cell 3 resolved incorrectly by player
1 costs player 2 the cell value at that resolution step. -/
theorem c8_gamble_applies_at_target_resolution_witness :
    (score_cell [PlayerOut.mk 1 10, PlayerOut.mk 2 20]
      [UsageRow.mk 9 2 2 "Gamble" none (some 3)] 1
      (ScoredCell.mk 3 (some 4) false false 5 40) 4).delta 2 =
    (score_cell [PlayerOut.mk 1 10, PlayerOut.mk 2 20] [] 1
      (ScoredCell.mk 3 (some 4) false false 5 40) 4).delta 2 +
      (if (2 : Nat) = (UsageRow.mk 9 2 2 "Gamble" none (some 3)).using_player_id
        then (if (ScoredCell.mk 3 (some 4) false false 5 40).correct_answer
          then (ScoredCell.mk 3 (some 4) false false 5 40).question_points
          else -(ScoredCell.mk 3 (some 4) false false 5 40).question_points)
        else 0) := by
  exact (c8_gamble_applies_at_target_resolution
    [PlayerOut.mk 1 10, PlayerOut.mk 2 20]
    (UsageRow.mk 9 2 2 "Gamble" none (some 3)) 3 [] [] rfl rfl
    (by decide)).2.2 (ScoredCell.mk 3 (some 4) false false 5 40) 1 4 rfl rfl
    (by decide) 2

end QuizBack
